import Mathlib

/-! The compilation driver of `compute-only-sample/vpucompiler/LlvmCompiler.cpp`.

A shallow embedding of `llvm_compile`, `compileModule`, `addPass`,
`GetOutputStream` and the two diagnostic handlers, followed by theorems about
them.

Conventions of the embedding.

* The code-generation library is not part of the repository.  Every call into it
  is a field of `World`: the field gives the value the call returns (and the
  diagnostics it delivers to the handlers installed on the context).
* The command-line globals (`cl::opt`) are the fields of `Options`.
* Everything observable that the driver does is appended, in program order, to
  `State.trace`; text written to the diagnostic stream is kept structured
  (`Message`) rather than rendered.
* `assert` is compiled out (release build); the functions are followed as they
  run with `NDEBUG`.  The sample inputs below satisfy every assertion.
* `SmallVector<char>` contents are lists of byte values.
* `MIR` in `compileModule` is declared and never assigned.  The blocks of
  `compileModule` take it as a parameter, and `compileModule` passes `none`.
* Calls whose result the driver never reads and that leave no file, stream or
  pass-manager change behind (target and pass registration, the hotness settings,
  the `TargetOptions` fields, `getCPUStr`, `getFeaturesStr`) are left out.
-/

namespace LlvmCompiler

/-! ## Data model -/

/-- The type `TargetMachine::CodeGenFileType`. -/
inductive CodeGenFileType where
  | CGFT_AssemblyFile
  | CGFT_ObjectFile
  | CGFT_Null
  deriving DecidableEq, Repr

/-- The type `CodeGenOpt::Level`. -/
inductive CodeGenOptLevel where
  | None
  | Less
  | Default
  | Aggressive
  deriving DecidableEq, Repr

/-- The type `DiagnosticSeverity`. -/
inductive DiagnosticSeverity where
  | DS_Error
  | DS_Warning
  | DS_Remark
  | DS_Note
  deriving DecidableEq, Repr

/-- The type `SourceMgr::DiagKind`. -/
inductive DiagKind where
  | DK_Error
  | DK_Warning
  | DK_Remark
  | DK_Note
  deriving DecidableEq, Repr

/-- What the handler reads of a `DiagnosticInfo`: its severity, whether it is a
`DiagnosticInfoOptimizationBase` (the `dyn_cast`), and `isEnabled()`. -/
structure DiagnosticInfo where
  Severity : DiagnosticSeverity
  isOptimizationRemark : Bool
  isEnabled : Bool
  text : String
  deriving DecidableEq, Repr

/-- What the driver reads of an `SMDiagnostic`. -/
structure SMDiagnostic where
  Kind : DiagKind
  text : String
  deriving DecidableEq, Repr

/-- A diagnostic raised inside the library: either through the context's
diagnostic handler or through the inline-asm handler (with its `LocCookie`). -/
inductive Diag where
  | ir (DI : DiagnosticInfo)
  | inlineAsm (SMD : SMDiagnostic) (LocCookie : Nat)
  deriving DecidableEq, Repr

/-- The fields of `Module` the driver touches; `body` stands for the rest. -/
structure Module where
  TargetTriple : String
  DataLayout : String
  body : Nat
  deriving DecidableEq, Repr

/-- The result of `createTargetMachine`: the target it was made from, the triple
and the optimization level it was given. -/
structure TargetMachine where
  TheTarget : Nat
  TT : String
  OLvl : CodeGenOptLevel
  deriving DecidableEq, Repr

/-- An opened `ToolOutputFile`: what `os().supportsSeeking()` answers. -/
structure ToolOutputFile where
  supportsSeeking : Bool
  deriving DecidableEq, Repr

/-- A `MIRParser`: what `parseMachineFunctions` answers (true is failure). -/
structure MIRParser where
  parseMachineFunctions : Bool
  deriving DecidableEq, Repr

/-- What `addPass` reads of a `PassInfo`. -/
structure PassInfo where
  PassName : String
  hasNormalCtor : Bool
  deriving DecidableEq, Repr

/-- The passes handed to `PM.add`. -/
inductive PassId where
  | TargetLibraryInfoWrapperPass (allDisabled : Bool)
  | TargetPassConfig
  | MachineModuleInfo
  | fromRegistry (PassName : String)
  | PrintMIRPass
  | FreeMachineFunctionPass
  | emitFile (FileType : CodeGenFileType)
  | printOrVerify (Banner : String) (n : Nat)
  deriving DecidableEq, Repr

/-- Which `WithColor` stream a message goes through (`plain` is `errs()`). -/
inductive HighlightColor where
  | error
  | warning
  | note
  | plain
  deriving DecidableEq, Repr

/-- The text written to the diagnostic stream, by the place that writes it. -/
inductive Message where
  | parseError (Err : SMDiagnostic)
  | lookupError (Error : String)
  | ecMessage (EC : String)
  | invalidOptLevel
  | moduleBroken
  | ignoringRelaxAll
  | runPassMirOnly
  | runPassLimited (Reason : String)
  | runPassNotRegistered (PassName : String)
  | cannotCreatePass (PassName : String)
  | fileTypeUnsupported
  | twiceChanged
  | badInputLanguage
  | srcloc (LocCookie : Nat)
  deriving DecidableEq, Repr

/-- The observable steps of the driver. -/
inductive Event where
  | parseIRFile (InputFilename : String)
  | diagnose (d : Diag)
  | diagnostic (DI : DiagnosticInfo)
  | smPrint (SMD : SMDiagnostic)
  | errs (c : HighlightColor) (progName : String) (m : Message)
  | lookupTarget (MArch TheTriple : String)
  | createTargetMachine (TM : TargetMachine)
  | openOutput (file : String)
  | openDwo (file : String)
  | openRemarks (file : String)
  | PM_add (P : PassId)
  | setDataLayout (DL : String)
  | UpgradeDebugInfo
  | verifyModule (M : Module)
  | createPassConfig
  | getPassInfo (PassName : String)
  | addPassesToEmitFile
  | parseMachineFunctions
  | PrintOptionValues
  | CloneModule
  | PM_run (M : Module) (bytes : List Nat)
  | writeOut (bytes : List Nat)
  | keepOut
  | keepDwo
  | keepRemarks
  deriving DecidableEq, Repr

/-- What one `PM.run` produces: the bytes it writes to the stream the passes were
given, and the diagnostics raised while it runs. -/
structure RunOutcome where
  bytes : List Nat
  diags : List Diag

/-- The command-line globals read by the driver. -/
structure Options where
  InputFilename : String
  InputLanguage : String
  OutputFilename : String
  SplitDwarfOutputFile : String
  OptLevel : Char
  TargetTriple : String
  NoVerify : Bool
  DisableSimplifyLibCalls : Bool
  CompileTwice : Bool
  RemarksFilename : String
  RunPassNames : List String
  FileType : CodeGenFileType
  MArch : String
  RelaxAllOccurrences : Nat

/-- The answers of the code-generation library and of the file system.

* `parseIRFile f`: the module read from `f`, or the `SMDiagnostic` left in `Err`
  when the result is null; with the diagnostics raised through the context meanwhile.
* `normalize`: `Triple::normalize`.  `getDefaultTargetTriple`: `sys::getDefaultTargetTriple()`.
* `lookupTarget MArch TheTriple`: the target found and the triple as the lookup leaves
  it (the lookup takes `TheTriple` by reference), or the `Error` string when the
  result is null.
* `createDataLayout`: `Target->createDataLayout()`.
* `openFile f`: the `ToolOutputFile` constructor: the opened file, or `EC.message()`.
* `UpgradeDebugInfo`, `setFunctionAttributes`: the module after the call (and, for the
  first, the diagnostics raised).  `verifyModule`: true when the module is broken.
* `hasLimitedCodeGenPipeline`, `getLimitedCodeGenPipelineReason`, `printAndVerify`: the
  `TargetPassConfig` made by `createPassConfig`; `printAndVerify` gives the passes added
  for a banner, given what `setDisableVerify` stored.
* `getPassInfo`: the pass registry.
* `addPassesToEmitFile Target FileType hasDwo NoVerify`: true when the target cannot
  emit that file type.
* `PM_run n passes M`: what the pass manager does on its run number `n` (counted from
  0) with the passes added so far.
* `M_IX86`: whether `_M_IX86` is defined. -/
structure World where
  parseIRFile : String → Except SMDiagnostic Module × List Diag
  normalize : String → String
  getDefaultTargetTriple : String
  lookupTarget : String → String → Except String (Nat × String)
  createDataLayout : TargetMachine → String
  openFile : String → Except String ToolOutputFile
  UpgradeDebugInfo : Module → Module × List Diag
  verifyModule : Module → Bool
  setFunctionAttributes : Module → Module
  hasLimitedCodeGenPipeline : Bool
  getLimitedCodeGenPipelineReason : String
  printAndVerify : Bool → String → List PassId
  getPassInfo : String → Option PassInfo
  addPassesToEmitFile : TargetMachine → CodeGenFileType → Bool → Bool → Bool
  PM_run : Nat → List PassId → Module → RunOutcome
  M_IX86 : Bool

/-- The mutable state of one compilation: the sticky flag the handlers point to,
the trace, the pass manager (its passes and how often it has run), the bytes the
primary destination has received, and the local `Buffer`. -/
structure State where
  HasError : Bool
  trace : List Event
  PM : List PassId
  runs : Nat
  Out : List Nat
  Buffer : List Nat

/-- A returned call: the `int` result and the state it leaves. -/
structure Result where
  ret : Int
  st : State

/-! ## Primitive steps -/

/-- Append one step to the trace. -/
def emit (st : State) (e : Event) : State :=
  { st with trace := st.trace ++ [e] }

/-- The call `PM.add(P)`. -/
def PM_add (st : State) (P : PassId) : State :=
  { st with PM := st.PM ++ [P], trace := st.trace ++ [Event.PM_add P] }

/-- The method `LLCDiagnosticHandler::handleDiagnostics` (its `bool` result is
always true and is dropped). -/
def LLCDiagnosticHandler.handleDiagnostics (st : State) (DI : DiagnosticInfo) : State :=
  let st1 : State :=
    if DI.Severity = DiagnosticSeverity.DS_Error then { st with HasError := true } else st
  if DI.isOptimizationRemark && !DI.isEnabled then st1
  else emit st1 (Event.diagnostic DI)

/-- The function `InlineAsmDiagHandler`. -/
def InlineAsmDiagHandler (st : State) (SMD : SMDiagnostic) (LocCookie : Nat) : State :=
  let st1 : State :=
    if SMD.Kind = DiagKind.DK_Error then { st with HasError := true } else st
  let st2 := emit st1 (Event.smPrint SMD)
  if LocCookie ≠ 0 then emit st2 (Event.errs HighlightColor.note "" (Message.srcloc LocCookie))
  else st2

/-- The library raises one diagnostic: it reaches the handler installed for its
kind. -/
def deliver1 (st : State) (d : Diag) : State :=
  match d with
  | Diag.ir DI => LLCDiagnosticHandler.handleDiagnostics (emit st (Event.diagnose d)) DI
  | Diag.inlineAsm SMD LocCookie =>
    InlineAsmDiagHandler (emit st (Event.diagnose d)) SMD LocCookie

/-- The diagnostics raised during one library call reach the handlers in order. -/
def deliver (st : State) (ds : List Diag) : State :=
  ds.foldl deliver1 st

/-- The function `memcmp` on the first `n` bytes of two buffers. -/
def memcmp : List Nat → List Nat → Nat → Int
  | _, _, 0 => 0
  | a :: as, b :: bs, n + 1 =>
    if a < b then -1 else if b < a then 1 else memcmp as bs n
  | _, _, _ + 1 => 0

/-- The `switch (OptLevel)` of `compileModule`: `none` is the `default:` case. -/
def switchOptLevel (OptLevel : Char) : Option CodeGenOptLevel :=
  if OptLevel = ' ' then some CodeGenOptLevel.Default
  else if OptLevel = '0' then some CodeGenOptLevel.None
  else if OptLevel = '1' then some CodeGenOptLevel.Less
  else if OptLevel = '2' then some CodeGenOptLevel.Default
  else if OptLevel = '3' then some CodeGenOptLevel.Aggressive
  else none

/-- The function `GetOutputStream`: `none` is `nullptr`. -/
def GetOutputStream (o : Options) (w : World) (st : State) : Option ToolOutputFile × State :=
  let st1 := emit st (Event.openOutput o.OutputFilename)
  match w.openFile o.OutputFilename with
  | Except.error EC =>
    (none, emit st1 (Event.errs HighlightColor.error "" (Message.ecMessage EC)))
  | Except.ok FDOut => (some FDOut, st1)

/-- The method `TargetPassConfig::printAndVerify`: adds the passes the library
chooses for this banner (`DisableVerify` is what `setDisableVerify` stored). -/
def printAndVerify (w : World) (DisableVerify : Bool) (st : State) (Banner : String) : State :=
  (w.printAndVerify DisableVerify Banner).foldl PM_add st

/-- The function `addPass`: the `bool` result (true is failure) and the state. -/
def addPass (progName : String) (w : World) (NoVerify : Bool) (PassName : String)
    (st : State) : Bool × State :=
  if PassName = "none" then (false, st)
  else
    let st1 := emit st (Event.getPassInfo PassName)
    match w.getPassInfo PassName with
    | none =>
      (true, emit st1 (Event.errs HighlightColor.error progName
        (Message.runPassNotRegistered PassName)))
    | some PI =>
      if PI.hasNormalCtor then
        let Banner := "After " ++ PI.PassName
        (false, printAndVerify w NoVerify (PM_add st1 (PassId.fromRegistry PI.PassName)) Banner)
      else
        (true, emit st1 (Event.errs HighlightColor.error progName
          (Message.cannotCreatePass PI.PassName)))

/-- The loop `for (RunPassName : *RunPassNames) if (addPass(...)) return 1;`:
true when an `addPass` failed (the loop stops there). -/
def addPassLoop (progName : String) (w : World) (NoVerify : Bool) :
    List String → State → Bool × State
  | [], st => (false, st)
  | RunPassName :: rest, st =>
    let r := addPass progName w NoVerify RunPassName st
    if r.1 then (true, r.2) else addPassLoop progName w NoVerify rest r.2

/-- The library method `StringRef::split(A, Separator, -1, false)`, on the characters
of `S` still to scan and the characters of the piece in progress: the scan stops a
piece at each separator (as `find` and `slice` do) and at the end of `S`, and a piece
is pushed to `A` only when it is not empty (`KeepEmpty` is false).  The count
`MaxSplit` starts at -1 and never reaches 0 on a string that fits in memory. -/
def StringRef.split (Separator : Char) : List Char → List Char → List (List Char)
  | [], piece => if piece.isEmpty then [] else [piece]
  | c :: S, piece =>
    if c = Separator then
      if piece.isEmpty then StringRef.split Separator S []
      else piece :: StringRef.split Separator S []
    else StringRef.split Separator S (piece ++ [c])

/-- The method `RunPassOption::operator=`: the value of `*RunPassNames` after the
call, from its value before and the option string `Val`. -/
def RunPassOption.operator_assign (RunPassNames : List String) (Val : String) : List String :=
  if Val = "" then RunPassNames
  else
    (StringRef.split ',' Val.toList []).foldl
      (fun names PassName => names ++ [String.mk PassName]) RunPassNames

/-- The call `PM.run(M)`: the passes write to `*OS` (the buffer when `BOS` is
set, the destination otherwise) and raise their diagnostics. -/
def PM_run (w : World) (M : Module) (BOS : Bool) (st : State) : State :=
  let r := w.PM_run st.runs st.PM M
  let st1 : State := { emit st (Event.PM_run M r.bytes) with runs := st.runs + 1 }
  let st2 : State :=
    if BOS then { st1 with Buffer := st1.Buffer ++ r.bytes }
    else { st1 with Out := st1.Out ++ r.bytes }
  deliver st2 r.diags

/-- The statement `Out->os() << Buffer`. -/
def writeOut (st : State) : State :=
  { emit st (Event.writeOut st.Buffer) with Out := st.Out ++ st.Buffer }

/-! ## `compileModule`, by blocks of the source -/

/-- The condition under which `compileModule` creates `BOS` and points `OS` at
the in-memory `Buffer` (otherwise `OS` stays `&Out->os()`). -/
def useBuffer (o : Options) (Out : ToolOutputFile) : Bool :=
  (o.FileType != CodeGenFileType.CGFT_AssemblyFile && !Out.supportsSeeking) || o.CompileTwice

/-- The block `if (CompileTwice) { M2 = CloneModule(*M); PM.run(*M2);
CompileTwiceBuffer = Buffer; Buffer.clear(); }`: the state after it and the value
of `CompileTwiceBuffer` (empty when the block is skipped). -/
def compileModule_firstRun (o : Options) (w : World) (M : Module) (BOS : Bool)
    (st : State) : State × List Nat :=
  if o.CompileTwice then
    let first := PM_run w M BOS (emit st Event.CloneModule)
    ({ first with Buffer := [] }, first.Buffer)
  else (st, [])

/-- From the sticky-flag check after the final `PM.run(*M)` to the end of
`compileModule`: the flag, the comparison of the two buffers, the copy of the
buffer to the destination and the `keep()` calls. -/
def compileModule_finish (o : Options) (BOS DwoOut : Bool) (CompileTwiceBuffer : List Nat)
    (st : State) : Result :=
  if st.HasError then ⟨1, st⟩
  else if o.CompileTwice &&
      (st.Buffer.length != CompileTwiceBuffer.length ||
        memcmp st.Buffer CompileTwiceBuffer st.Buffer.length != 0) then
    ⟨1, emit (writeOut (emit st (Event.errs HighlightColor.plain "" Message.twiceChanged)))
      Event.keepOut⟩
  else
    let st4 := if BOS then writeOut st else st
    let st5 := emit st4 Event.keepOut
    let st6 := if DwoOut then emit st5 Event.keepDwo else st5
    ⟨0, st6⟩

/-- From `cl::PrintOptionValues()` to the end of `compileModule`: the run (or the
two runs) and what follows. -/
def compileModule_run (o : Options) (w : World) (M : Module) (BOS DwoOut : Bool)
    (st : State) : Result :=
  let f := compileModule_firstRun o w M BOS (emit st Event.PrintOptionValues)
  compileModule_finish o BOS DwoOut f.2 (PM_run w M BOS f.1)

/-- The `if (!RunPassNames->empty()) ... else if (Target->addPassesToEmitFile ...)`
statement: true when it executes `return 1`. -/
def compileModule_passes (progName : String) (o : Options) (w : World)
    (MIR : Option MIRParser) (Target : TargetMachine) (DwoOut : Bool) (st : State) :
    Bool × State :=
  if !o.RunPassNames.isEmpty then
    match MIR with
    | none => (true, emit st (Event.errs HighlightColor.warning progName Message.runPassMirOnly))
    | some _ =>
      let st1 := emit st Event.createPassConfig
      if w.hasLimitedCodeGenPipeline then
        (true, emit st1 (Event.errs HighlightColor.warning progName
          (Message.runPassLimited w.getLimitedCodeGenPipelineReason)))
      else
        let st2 := PM_add (PM_add st1 PassId.TargetPassConfig) PassId.MachineModuleInfo
        let st3 := printAndVerify w o.NoVerify st2 ""
        let r := addPassLoop progName w o.NoVerify o.RunPassNames st3
        if r.1 then (true, r.2)
        else (false, PM_add (PM_add r.2 PassId.PrintMIRPass) PassId.FreeMachineFunctionPass)
  else
    let st1 := emit st Event.addPassesToEmitFile
    if w.addPassesToEmitFile Target o.FileType DwoOut o.NoVerify then
      (true, emit st1 (Event.errs HighlightColor.warning progName Message.fileTypeUnsupported))
    else (false, PM_add st1 (PassId.emitFile o.FileType))

/-- The block that chooses the stream, builds the pipeline and parses the
machine functions, then runs. -/
def compileModule_pipeline (progName : String) (o : Options) (w : World)
    (MIR : Option MIRParser) (M : Module) (Target : TargetMachine) (Out : ToolOutputFile)
    (DwoOut : Bool) (st : State) : Result :=
  let BOS := useBuffer o Out
  let p := compileModule_passes progName o w MIR Target DwoOut st
  if p.1 then ⟨1, p.2⟩
  else
    match MIR with
    | some mir =>
      let st1 := emit p.2 Event.parseMachineFunctions
      if mir.parseMachineFunctions then ⟨1, st1⟩
      else compileModule_run o w M BOS DwoOut st1
    | none => compileModule_run o w M BOS DwoOut p.2

/-- From `legacy::PassManager PM;` to the `-mc-relax-all` warning: the library
info pass, the data layout, the debug-info upgrade and the verifier. -/
def compileModule_verify (progName : String) (o : Options) (w : World)
    (MIR : Option MIRParser) (M : Module) (Target : TargetMachine) (Out : ToolOutputFile)
    (DwoOut : Bool) (st : State) : Result :=
  let st1 := PM_add st (PassId.TargetLibraryInfoWrapperPass o.DisableSimplifyLibCalls)
  let M1 : Module := { M with DataLayout := w.createDataLayout Target }
  let st2 := emit st1 (Event.setDataLayout M1.DataLayout)
  let u := w.UpgradeDebugInfo M1
  let st3 := deliver (emit st2 Event.UpgradeDebugInfo) u.2
  let M2 := u.1
  let st4 := if !o.NoVerify then emit st3 (Event.verifyModule M2) else st3
  if !o.NoVerify && w.verifyModule M2 then
    ⟨1, emit st4 (Event.errs HighlightColor.error (progName ++ ": " ++ o.InputFilename)
      Message.moduleBroken)⟩
  else
    let M3 := w.setFunctionAttributes M2
    let st5 :=
      if decide (0 < o.RelaxAllOccurrences) && o.FileType != CodeGenFileType.CGFT_ObjectFile then
        emit st4 (Event.errs HighlightColor.warning progName Message.ignoringRelaxAll)
      else st4
    compileModule_pipeline progName o w MIR M3 Target Out DwoOut st5

/-- The block that opens the primary output and the split side file. -/
def compileModule_output (progName : String) (o : Options) (w : World)
    (MIR : Option MIRParser) (M : Module) (Target : TargetMachine) (st : State) : Result :=
  let g := GetOutputStream o w st
  match g.1 with
  | none => ⟨1, g.2⟩
  | some Out =>
    if !o.SplitDwarfOutputFile.isEmpty then
      let st1 := emit g.2 (Event.openDwo o.SplitDwarfOutputFile)
      match w.openFile o.SplitDwarfOutputFile with
      | Except.error EC =>
        ⟨1, emit st1 (Event.errs HighlightColor.error progName (Message.ecMessage EC))⟩
      | Except.ok _ => compileModule_verify progName o w MIR M Target Out true st1
    else compileModule_verify progName o w MIR M Target Out false g.2

/-- The statement `if (!TargetTriple.empty()) M->setTargetTriple(Triple::normalize(TargetTriple));`. -/
def overrideTriple (o : Options) (w : World) (M : Module) : Module :=
  if !o.TargetTriple.isEmpty then { M with TargetTriple := w.normalize o.TargetTriple } else M

/-- The statements `TheTriple = Triple(M->getTargetTriple()); if (TheTriple.getTriple().empty())
TheTriple.setTriple(sys::getDefaultTargetTriple());`. -/
def resolveTriple (w : World) (M : Module) : String :=
  if M.TargetTriple.isEmpty then w.getDefaultTargetTriple else M.TargetTriple

/-- The state in which `compileModule` starts: `HasError` is the flag the handlers
installed on `Context` point to. -/
def initState (HasError : Bool) : State :=
  { HasError := HasError, trace := [], PM := [], runs := 0, Out := [], Buffer := [] }

/-- The function `compileModule`.  `MIR` is declared and never assigned, so it is
null throughout. -/
def compileModule (progName : String) (o : Options) (w : World) (HasError : Bool) : Result :=
  let MIR : Option MIRParser := none
  let p := w.parseIRFile o.InputFilename
  let st1 := deliver (emit (initState HasError) (Event.parseIRFile o.InputFilename)) p.2
  match p.1 with
  | Except.error Err =>
    ⟨1, emit st1 (Event.errs HighlightColor.error progName (Message.parseError Err))⟩
  | Except.ok M0 =>
    let M : Module := overrideTriple o w M0
    let TheTriple0 := resolveTriple w M
    let st2 := emit st1 (Event.lookupTarget o.MArch TheTriple0)
    match w.lookupTarget o.MArch TheTriple0 with
    | Except.error Error =>
      ⟨1, emit st2 (Event.errs HighlightColor.error progName (Message.lookupError Error))⟩
    | Except.ok TheTarget =>
      match switchOptLevel o.OptLevel with
      | none =>
        ⟨1, emit st2 (Event.errs HighlightColor.error progName Message.invalidOptLevel)⟩
      | some OLvl =>
        let Target : TargetMachine := ⟨TheTarget.1, TheTarget.2, OLvl⟩
        compileModule_output progName o w MIR M Target
          (emit st2 (Event.createTargetMachine Target))

/-- The assignments of `llvm_compile` to the globals: `FileType`, `InputFilename`,
`OutputFilename` and `MArch` (by `_M_IX86`). -/
def llvm_compile_options (o0 : Options) (w : World) (input output : String) : Options :=
  { o0 with
    FileType := CodeGenFileType.CGFT_ObjectFile
    InputFilename := input
    OutputFilename := output
    MArch := if w.M_IX86 then "x86" else "x86-64" }

/-- The function `llvm_compile`: fixes the file type, the file names and the
architecture, installs the handlers on a fresh flag, opens the remarks file when
one is named, checks the input language and calls `compileModule`. -/
def llvm_compile (progName : String) (o0 : Options) (w : World) (input output : String) :
    Result :=
  let o : Options := llvm_compile_options o0 w input output
  let HasError := false
  let YamlFile : Bool := o.RemarksFilename != ""
  let pre : List Event := if YamlFile then [Event.openRemarks o.RemarksFilename] else []
  match (if YamlFile then w.openFile o.RemarksFilename else Except.ok ⟨true⟩) with
  | Except.error EC =>
    ⟨1, { initState HasError with
          trace := pre ++ [Event.errs HighlightColor.error progName (Message.ecMessage EC)] }⟩
  | Except.ok _ =>
    if o.InputLanguage != "" && o.InputLanguage != "ir" && o.InputLanguage != "mir" then
      ⟨1, { initState HasError with
            trace := pre ++ [Event.errs HighlightColor.error progName Message.badInputLanguage] }⟩
    else
      let r := compileModule progName o w HasError
      if r.ret ≠ 0 then ⟨r.ret, { r.st with trace := pre ++ r.st.trace }⟩
      else
        ⟨0, { r.st with
              trace := pre ++ r.st.trace ++ (if YamlFile then [Event.keepRemarks] else []) }⟩

/-! ## Sample inputs -/

/-- A module with an explicit triple. -/
def sampleModule : Module :=
  { TargetTriple := "x86_64-pc-windows-msvc", DataLayout := "", body := 7 }

/-- Options as `llvm_compile` leaves them when no flag is given. -/
def sampleOptions : Options :=
  { InputFilename := "kernel.ll"
    InputLanguage := ""
    OutputFilename := "kernel.obj"
    SplitDwarfOutputFile := ""
    OptLevel := ' '
    TargetTriple := ""
    NoVerify := false
    DisableSimplifyLibCalls := false
    CompileTwice := false
    RemarksFilename := ""
    RunPassNames := []
    FileType := CodeGenFileType.CGFT_ObjectFile
    MArch := "x86-64"
    RelaxAllOccurrences := 0 }

/-- A library in which every call succeeds, no diagnostic is raised, and each run
of the pass manager writes the bytes 1, 2, 3. -/
def sampleWorld : World :=
  { parseIRFile := fun _ => (Except.ok sampleModule, [])
    normalize := fun t => t
    getDefaultTargetTriple := "x86_64-pc-windows-msvc"
    lookupTarget := fun _ t => Except.ok (1, t)
    createDataLayout := fun _ => "e-m:w-i64:64"
    openFile := fun _ => Except.ok ⟨true⟩
    UpgradeDebugInfo := fun M => (M, [])
    verifyModule := fun _ => false
    setFunctionAttributes := fun M => M
    hasLimitedCodeGenPipeline := false
    getLimitedCodeGenPipelineReason := ""
    printAndVerify := fun _ _ => []
    getPassInfo := fun _ => none
    addPassesToEmitFile := fun _ _ _ _ => false
    PM_run := fun _ _ _ => ⟨[1, 2, 3], []⟩
    M_IX86 := false }

/-- A library whose pass manager keeps state between runs: run number `n` writes
the byte `n`. -/
def driftWorld : World :=
  { sampleWorld with PM_run := fun n _ _ => ⟨[n], []⟩ }

/-- The options with the compile-twice check switched on. -/
def twiceOptions : Options :=
  { sampleOptions with CompileTwice := true }

/-- A library whose reader rejects the input file. -/
def unreadableWorld : World :=
  { sampleWorld with
    parseIRFile := fun _ => (Except.error ⟨DiagKind.DK_Error, "expected top-level entity"⟩, []) }

/-- The options with a split side file requested. -/
def dwoOptions : Options :=
  { sampleOptions with SplitDwarfOutputFile := "kernel.dwo" }

/-- The sample module once the data layout of the sample target is assigned. -/
def laidOutModule : Module :=
  { sampleModule with DataLayout := "e-m:w-i64:64" }

/-- A library whose pass manager raises an inline-asm error on every run. -/
def faultyRunWorld : World :=
  { sampleWorld with
    PM_run := fun _ _ _ =>
      ⟨[1, 2, 3], [Diag.inlineAsm ⟨DiagKind.DK_Error, "invalid instruction mnemonic"⟩ 0]⟩ }

/-- A library whose pass manager keeps state between runs (run number `n` writes
the byte `n`) and raises an error diagnostic during its second run. -/
def driftFaultyWorld : World :=
  { sampleWorld with
    PM_run := fun n _ _ =>
      ⟨[n], if n = 1 then
          [Diag.ir ⟨DiagnosticSeverity.DS_Error, false, true, "unsupported relocation"⟩]
        else []⟩ }

/-- The options with `-O9`. -/
def o9Options : Options :=
  { sampleOptions with OptLevel := '9' }

/-- The options with `-O3`. -/
def o3Options : Options :=
  { sampleOptions with OptLevel := '3' }

/-- A library in which the destination is a pipe (no seeking). -/
def pipeWorld : World :=
  { sampleWorld with openFile := fun _ => Except.ok ⟨false⟩ }

/-- A library whose target registry matches nothing. -/
def unknownTargetWorld : World :=
  { sampleWorld with
    lookupTarget := fun _ _ => Except.error "unable to get target for the triple" }

/-- A library whose verifier rejects every module. -/
def brokenWorld : World :=
  { sampleWorld with verifyModule := fun _ => true }

/-- The target machine the sample library creates for the sample options. -/
def sampleTarget : TargetMachine :=
  ⟨1, "x86_64-pc-windows-msvc", CodeGenOptLevel.Default⟩

/-- The options with `-run-pass=no-such-pass` and `-x mir`. -/
def runPassOptions : Options :=
  { sampleOptions with RunPassNames := ["no-such-pass"], InputLanguage := "mir" }

/-- The options with `-O9` and a remarks file. -/
def o9RemarksOptions : Options :=
  { sampleOptions with OptLevel := '9', RemarksFilename := "remarks.yaml" }

/-! ## Vocabulary of the statements -/

/-- The state of `compileModule` right after the call of `lookupTarget`, when the
input parsed to `M0`. -/
def stateAtLookup (o : Options) (w : World) (HasError : Bool) (M0 : Module) : State :=
  emit (deliver (emit (initState HasError) (Event.parseIRFile o.InputFilename))
      (w.parseIRFile o.InputFilename).2)
    (Event.lookupTarget o.MArch (resolveTriple w (overrideTriple o w M0)))

/-- The state of `compileModule` once the target machine is created and both
outputs are opened. -/
def stateAtOutputs (o : Options) (w : World) (HasError : Bool) (M0 : Module)
    (Target : TargetMachine) : State :=
  let st := emit (emit (stateAtLookup o w HasError M0) (Event.createTargetMachine Target))
    (Event.openOutput o.OutputFilename)
  if o.SplitDwarfOutputFile.isEmpty then st else emit st (Event.openDwo o.SplitDwarfOutputFile)

/-- The module handed to the verifier: the parsed module with the triple override,
the data layout of the target machine, and the debug-info upgrade. -/
def moduleAtVerify (o : Options) (w : World) (M0 : Module) (Target : TargetMachine) : Module :=
  (w.UpgradeDebugInfo { overrideTriple o w M0 with DataLayout := w.createDataLayout Target }).1

/-- The state of `compileModule` when the verifier is reached (before it is called,
if it is). -/
def stateAtVerify (o : Options) (w : World) (HasError : Bool) (M0 : Module)
    (Target : TargetMachine) : State :=
  deliver (emit (emit (PM_add (stateAtOutputs o w HasError M0 Target)
      (PassId.TargetLibraryInfoWrapperPass o.DisableSimplifyLibCalls))
      (Event.setDataLayout (w.createDataLayout Target))) Event.UpgradeDebugInfo)
    (w.UpgradeDebugInfo
      { overrideTriple o w M0 with DataLayout := w.createDataLayout Target }).2

/-- The state of `compileModule` when the pipeline is about to be built: after the
verifier (when enabled) and the `-mc-relax-all` warning (when it applies). -/
def stateAtPipeline (progName : String) (o : Options) (w : World) (HasError : Bool)
    (M0 : Module) (Target : TargetMachine) : State :=
  let st4 :=
    if !o.NoVerify then
      emit (stateAtVerify o w HasError M0 Target)
        (Event.verifyModule (moduleAtVerify o w M0 Target))
    else stateAtVerify o w HasError M0 Target
  if decide (0 < o.RelaxAllOccurrences) && o.FileType != CodeGenFileType.CGFT_ObjectFile then
    emit st4 (Event.errs HighlightColor.warning progName Message.ignoringRelaxAll)
  else st4

/-- Whether a diagnostic is one that sets the flag: error severity for the
context handler, error kind for the inline-asm handler. -/
def Diag.isError : Diag → Bool
  | Diag.ir DI => decide (DI.Severity = DiagnosticSeverity.DS_Error)
  | Diag.inlineAsm SMD _ => decide (SMD.Kind = DiagKind.DK_Error)

/-- The steps one raised diagnostic appends to the trace: that it was raised, and
what its handler prints. -/
def handlerOutput1 : Diag → List Event
  | Diag.ir DI =>
    if DI.isOptimizationRemark && !DI.isEnabled then [Event.diagnose (Diag.ir DI)]
    else [Event.diagnose (Diag.ir DI), Event.diagnostic DI]
  | Diag.inlineAsm SMD LocCookie =>
    if LocCookie ≠ 0 then
      [Event.diagnose (Diag.inlineAsm SMD LocCookie), Event.smPrint SMD,
        Event.errs HighlightColor.note "" (Message.srcloc LocCookie)]
    else [Event.diagnose (Diag.inlineAsm SMD LocCookie), Event.smPrint SMD]

/-- The steps the handlers append for a list of diagnostics. -/
def handlerOutput : List Diag → List Event
  | [] => []
  | d :: ds => handlerOutput1 d ++ handlerOutput ds

/-- The steps that only come from a raised diagnostic and its handler. -/
def Event.fromHandler : Event → Bool
  | Event.diagnose _ => true
  | Event.diagnostic _ => true
  | Event.smPrint _ => true
  | Event.errs HighlightColor.note _ (Message.srcloc _) => true
  | _ => false

/-- The step that marks the compile-twice mismatch branch: its message. -/
def twiceChangedEvent : Event :=
  Event.errs HighlightColor.plain "" Message.twiceChanged

/-- Nothing has been kept and the mismatch branch has not been taken. -/
def NoKeep (st : State) : Prop :=
  Event.keepOut ∉ st.trace ∧ Event.keepDwo ∉ st.trace ∧ twiceChangedEvent ∉ st.trace

/-- The primary output is kept exactly on return 0 or on the mismatch branch, and
the side file only on return 0. -/
def KeepSpec (r : Result) : Prop :=
  (Event.keepOut ∈ r.st.trace ↔ (r.ret = 0 ∨ twiceChangedEvent ∈ r.st.trace)) ∧
  (Event.keepDwo ∈ r.st.trace → r.ret = 0) ∧
  (twiceChangedEvent ∈ r.st.trace → r.ret = 1)

/-- The steps that record an error diagnostic being raised. -/
def Event.isErrorDiag : Event → Bool
  | Event.diagnose d => d.isError
  | _ => false

/-- Whether an error diagnostic was raised somewhere in a trace. -/
def raisedError (tr : List Event) : Bool :=
  tr.any Event.isErrorDiag

/-- The flag is set exactly when it started set or an error diagnostic was raised. -/
def FlagOK (init : Bool) (st : State) : Prop :=
  st.HasError = (init || raisedError st.trace)

/-- What a returned call owes the flag: it is accounted for, and a set flag means
the result is 1. -/
def FlagSpec (init : Bool) (r : Result) : Prop :=
  FlagOK init r.st ∧ (r.st.HasError = true → r.ret = 1)

/-- The steps that can occur before `cl::PrintOptionValues()`. -/
def Event.preRun : Event → Bool
  | Event.PM_run _ _ => false
  | Event.CloneModule => false
  | Event.PrintOptionValues => false
  | Event.writeOut _ => false
  | Event.keepOut => false
  | Event.keepDwo => false
  | Event.keepRemarks => false
  | Event.errs HighlightColor.plain _ _ => false
  | _ => true

/-- A state in which the pass manager has not run: only earlier steps in the
trace, nothing written to the destination or the buffer. -/
def PreRun (st : State) : Prop :=
  (∀ e ∈ st.trace, e.preRun = true) ∧ st.Out = [] ∧ st.Buffer = [] ∧ st.runs = 0

/-- An execution either returns 1 before the run block, or is the run block
started with the opened primary output in a state in which nothing has run. -/
def Shape (o : Options) (w : World) (r : Result) : Prop :=
  (∃ st, r = ⟨1, st⟩ ∧ PreRun st) ∨
  (∃ M Out st, w.openFile o.OutputFilename = Except.ok Out ∧ PreRun st ∧
    r = compileModule_run o w M (useBuffer o Out) (!o.SplitDwarfOutputFile.isEmpty) st)

/-- The bytes written by the runs of the pass manager, in order. -/
def runBytes : List Event → List (List Nat)
  | [] => []
  | Event.PM_run _ bytes :: tr => bytes :: runBytes tr
  | _ :: tr => runBytes tr

/-- The byte strings copied to the destination by `Out->os() << Buffer`, in order. -/
def writes : List Event → List (List Nat)
  | [] => []
  | Event.writeOut bytes :: tr => bytes :: writes tr
  | _ :: tr => writes tr

/-- The steps that can occur before the pipeline is built, together with the report
that a custom pass list needs machine-IR input. -/
def Event.beforePasses : Event → Bool
  | Event.createPassConfig => false
  | Event.getPassInfo _ => false
  | Event.PM_add (PassId.TargetLibraryInfoWrapperPass _) => true
  | Event.PM_add _ => false
  | Event.addPassesToEmitFile => false
  | Event.parseMachineFunctions => false
  | Event.PM_run _ _ => false
  | Event.CloneModule => false
  | Event.PrintOptionValues => false
  | Event.writeOut _ => false
  | Event.keepOut => false
  | Event.keepDwo => false
  | Event.keepRemarks => false
  | Event.errs _ _ (Message.runPassLimited _) => false
  | Event.errs _ _ (Message.runPassNotRegistered _) => false
  | Event.errs _ _ (Message.cannotCreatePass _) => false
  | Event.errs _ _ Message.fileTypeUnsupported => false
  | Event.errs _ _ Message.twiceChanged => false
  | _ => true

/-- A call that returned 1 without going past the start of pipeline construction. -/
def FailsBefore (r : Result) : Prop :=
  r.ret = 1 ∧ (∀ e ∈ r.st.trace, e.beforePasses = true) ∧ r.st.runs = 0 ∧ r.st.Out = []

/-- A state in which pipeline construction has not started. -/
def Before (st : State) : Prop :=
  (∀ e ∈ st.trace, e.beforePasses = true) ∧ st.runs = 0 ∧ st.Out = []

/-- The steps that can occur up to the `switch (OptLevel)`: opening the remarks
file, reading the input, diagnostics, the target lookup, and reports. -/
def Event.beforeLevel : Event → Bool
  | Event.openRemarks _ => true
  | Event.parseIRFile _ => true
  | Event.diagnose _ => true
  | Event.diagnostic _ => true
  | Event.smPrint _ => true
  | Event.errs _ _ _ => true
  | Event.lookupTarget _ _ => true
  | _ => false

/-- The non-empty comma-separated segments of a string, in their order: the reading
of the option string in the words of the specification, against which
`RunPassOption.operator_assign` is compared. -/
def nonEmptySegments (Val : String) : List String :=
  ((Val.toList.splitOn ',').filter (fun seg => !seg.isEmpty)).map String.mk

/-- What the pass manager receives for one registered, constructible name: the pass
made by the constructor of its registry entry, then the passes `printAndVerify` adds
under the banner of that pass. -/
def stagesFor (w : World) (NoVerify : Bool) (PassName : String) : List PassId :=
  match w.getPassInfo PassName with
  | some PI =>
    PassId.fromRegistry PI.PassName :: w.printAndVerify NoVerify ("After " ++ PI.PassName)
  | none => []

/-- Whether the registry knows a name and can construct its pass. -/
def constructible (w : World) (PassName : String) : Bool :=
  match w.getPassInfo PassName with
  | some PI => PI.hasNormalCtor
  | none => false

/-- The pass made for a name by the constructor of its registry entry. -/
def passOf (w : World) (PassName : String) : Option PassId :=
  (w.getPassInfo PassName).map (fun PI => PassId.fromRegistry PI.PassName)

/-- A registry with two passes. -/
def registryWorld : World :=
  { sampleWorld with
    getPassInfo := fun n =>
      if n = "machine-cse" then some ⟨"Machine Common Subexpression Elimination", true⟩
      else if n = "dead-mi-elimination" then some ⟨"Remove dead machine instructions", true⟩
      else none }

/-- A registry in which a pass is registered under the name "none". -/
def noneWorld : World :=
  { sampleWorld with
    getPassInfo := fun n => if n = "none" then some ⟨"none", true⟩ else none }

/-- The options with the custom pass list machine-cse, dead-mi-elimination,
machine-cse. -/
def threePassOptions : Options :=
  { sampleOptions with RunPassNames := ["machine-cse", "dead-mi-elimination", "machine-cse"] }

/-- The options with the custom pass list "none". -/
def nonePassOptions : Options :=
  { sampleOptions with RunPassNames := ["none"] }

/-! ## What the handlers do to the state -/

theorem deliver1_trace (st : State) (d : Diag) :
    (deliver1 st d).trace = st.trace ++ handlerOutput1 d := by
  cases d with
  | ir DI =>
    simp only [deliver1, LLCDiagnosticHandler.handleDiagnostics, handlerOutput1, emit]
    split <;> split <;> simp
  | inlineAsm SMD c =>
    simp only [deliver1, InlineAsmDiagHandler, handlerOutput1, emit]
    split <;> split <;> simp

theorem deliver1_HasError (st : State) (d : Diag) :
    (deliver1 st d).HasError = (st.HasError || d.isError) := by
  cases d with
  | ir DI =>
    simp only [deliver1, LLCDiagnosticHandler.handleDiagnostics, Diag.isError, emit]
    split <;> split <;> simp [*]
  | inlineAsm SMD c =>
    simp only [deliver1, InlineAsmDiagHandler, Diag.isError, emit]
    split <;> split <;> simp [*]

theorem deliver1_rest (st : State) (d : Diag) :
    (deliver1 st d).PM = st.PM ∧ (deliver1 st d).runs = st.runs ∧
    (deliver1 st d).Out = st.Out ∧ (deliver1 st d).Buffer = st.Buffer := by
  cases d with
  | ir DI =>
    simp only [deliver1, LLCDiagnosticHandler.handleDiagnostics, emit]
    split <;> split <;> simp
  | inlineAsm SMD c =>
    simp only [deliver1, InlineAsmDiagHandler, emit]
    split <;> split <;> simp

@[simp] theorem deliver_trace (st : State) (ds : List Diag) :
    (deliver st ds).trace = st.trace ++ handlerOutput ds := by
  induction ds generalizing st with
  | nil => simp [deliver, handlerOutput]
  | cons d ds ih =>
    have h := ih (deliver1 st d)
    simp only [deliver, List.foldl_cons] at h ⊢
    rw [h, deliver1_trace, handlerOutput, List.append_assoc]

@[simp] theorem deliver_HasError (st : State) (ds : List Diag) :
    (deliver st ds).HasError = (st.HasError || ds.any Diag.isError) := by
  induction ds generalizing st with
  | nil => simp [deliver]
  | cons d ds ih =>
    have h := ih (deliver1 st d)
    simp only [deliver, List.foldl_cons] at h ⊢
    rw [h, deliver1_HasError, List.any_cons, Bool.or_assoc]

theorem deliver_rest (st : State) (ds : List Diag) :
    (deliver st ds).PM = st.PM ∧ (deliver st ds).runs = st.runs ∧
    (deliver st ds).Out = st.Out ∧ (deliver st ds).Buffer = st.Buffer := by
  induction ds generalizing st with
  | nil => simp [deliver]
  | cons d ds ih =>
    have h := ih (deliver1 st d)
    have h1 := deliver1_rest st d
    simp only [deliver, List.foldl_cons] at h ⊢
    rw [h.1, h.2.1, h.2.2.1, h.2.2.2]
    exact h1

@[simp] theorem deliver_PM (st : State) (ds : List Diag) : (deliver st ds).PM = st.PM :=
  (deliver_rest st ds).1

@[simp] theorem deliver_runs (st : State) (ds : List Diag) : (deliver st ds).runs = st.runs :=
  (deliver_rest st ds).2.1

@[simp] theorem deliver_Out (st : State) (ds : List Diag) : (deliver st ds).Out = st.Out :=
  (deliver_rest st ds).2.2.1

@[simp] theorem deliver_Buffer (st : State) (ds : List Diag) :
    (deliver st ds).Buffer = st.Buffer :=
  (deliver_rest st ds).2.2.2

theorem fromHandler_of_mem_handlerOutput (ds : List Diag) (e : Event)
    (h : e ∈ handlerOutput ds) : e.fromHandler = true := by
  induction ds with
  | nil => simp [handlerOutput] at h
  | cons d ds ih =>
    simp only [handlerOutput, List.mem_append] at h
    rcases h with h | h
    · cases d with
      | ir DI =>
        simp only [handlerOutput1] at h
        split at h
        · simp only [List.mem_singleton] at h
          subst h
          rfl
        · simp only [List.mem_cons, List.mem_singleton, List.not_mem_nil, or_false] at h
          rcases h with h | h <;> subst h <;> rfl
      | inlineAsm SMD c =>
        simp only [handlerOutput1] at h
        split at h
        · simp only [List.mem_cons, List.mem_singleton, List.not_mem_nil, or_false] at h
          rcases h with h | h | h <;> subst h <;> rfl
        · simp only [List.mem_cons, List.mem_singleton, List.not_mem_nil, or_false] at h
          rcases h with h | h <;> subst h <;> rfl
    · exact ih h

theorem not_mem_handlerOutput (ds : List Diag) (e : Event) (h : e.fromHandler = false) :
    e ∉ handlerOutput ds := by
  intro hm
  rw [fromHandler_of_mem_handlerOutput ds e hm] at h
  exact Bool.noConfusion h

theorem mem_handlerOutput_eq_false (ds : List Diag) (e : Event) (h : e.fromHandler = false) :
    (e ∈ handlerOutput ds) = False :=
  eq_false (not_mem_handlerOutput ds e h)

/-! ## What `PM.run` does to the state -/

@[simp] theorem PM_run_trace (w : World) (M : Module) (BOS : Bool) (st : State) :
    (PM_run w M BOS st).trace =
      st.trace ++ Event.PM_run M (w.PM_run st.runs st.PM M).bytes ::
        handlerOutput (w.PM_run st.runs st.PM M).diags := by
  cases BOS <;> simp [PM_run, emit]

@[simp] theorem PM_run_HasError (w : World) (M : Module) (BOS : Bool) (st : State) :
    (PM_run w M BOS st).HasError =
      (st.HasError || (w.PM_run st.runs st.PM M).diags.any Diag.isError) := by
  cases BOS <;> simp [PM_run, emit]

@[simp] theorem PM_run_Buffer (w : World) (M : Module) (BOS : Bool) (st : State) :
    (PM_run w M BOS st).Buffer =
      if BOS then st.Buffer ++ (w.PM_run st.runs st.PM M).bytes else st.Buffer := by
  cases BOS <;> simp [PM_run, emit]

@[simp] theorem PM_run_Out (w : World) (M : Module) (BOS : Bool) (st : State) :
    (PM_run w M BOS st).Out =
      if BOS then st.Out else st.Out ++ (w.PM_run st.runs st.PM M).bytes := by
  cases BOS <;> simp [PM_run, emit]

@[simp] theorem PM_run_PM (w : World) (M : Module) (BOS : Bool) (st : State) :
    (PM_run w M BOS st).PM = st.PM := by
  cases BOS <;> simp [PM_run, emit]

@[simp] theorem PM_run_runs (w : World) (M : Module) (BOS : Bool) (st : State) :
    (PM_run w M BOS st).runs = st.runs + 1 := by
  cases BOS <;> simp [PM_run, emit]

/-! ## When the outputs are kept -/

theorem KeepSpec_fail (st : State) (h : NoKeep st) : KeepSpec ⟨1, st⟩ := by
  obtain ⟨h1, h2, h3⟩ := h
  simp [KeepSpec, h1, h2, h3]

theorem NoKeep_emit (st : State) (e : Event) (h : NoKeep st) (h1 : e ≠ Event.keepOut)
    (h2 : e ≠ Event.keepDwo) (h3 : e ≠ twiceChangedEvent) : NoKeep (emit st e) := by
  obtain ⟨a, b, c⟩ := h
  simp only [NoKeep, emit, List.mem_append, List.mem_singleton, not_or]
  exact ⟨⟨a, Ne.symm h1⟩, ⟨b, Ne.symm h2⟩, ⟨c, Ne.symm h3⟩⟩

theorem NoKeep_deliver (st : State) (ds : List Diag) (h : NoKeep st) :
    NoKeep (deliver st ds) := by
  obtain ⟨a, b, c⟩ := h
  simp only [NoKeep, deliver_trace, List.mem_append, not_or]
  exact ⟨⟨a, not_mem_handlerOutput ds _ rfl⟩, ⟨b, not_mem_handlerOutput ds _ rfl⟩,
    ⟨c, not_mem_handlerOutput ds _ rfl⟩⟩

theorem NoKeep_PM_add (st : State) (P : PassId) (h : NoKeep st) : NoKeep (PM_add st P) := by
  obtain ⟨a, b, c⟩ := h
  simp only [twiceChangedEvent] at c
  simp [NoKeep, PM_add, a, b, c, twiceChangedEvent]

theorem NoKeep_PM_run (w : World) (M : Module) (BOS : Bool) (st : State) (h : NoKeep st) :
    NoKeep (PM_run w M BOS st) := by
  obtain ⟨a, b, c⟩ := h
  simp only [twiceChangedEvent] at c
  simp [NoKeep, twiceChangedEvent, a, b, c, mem_handlerOutput_eq_false, Event.fromHandler]

theorem NoKeep_firstRun (o : Options) (w : World) (M : Module) (BOS : Bool) (st : State)
    (h : NoKeep st) : NoKeep (compileModule_firstRun o w M BOS st).1 := by
  unfold compileModule_firstRun
  split
  · exact NoKeep_PM_run w M BOS _
      (NoKeep_emit st _ h (by simp) (by simp) (by simp [twiceChangedEvent]))
  · exact h

theorem compileModule_finish_keep (o : Options) (BOS DwoOut : Bool) (CTB : List Nat)
    (st : State) (h : NoKeep st) : KeepSpec (compileModule_finish o BOS DwoOut CTB st) := by
  obtain ⟨a, b, c⟩ := h
  simp only [twiceChangedEvent] at c
  cases BOS <;> cases DwoOut <;>
    simp only [compileModule_finish, KeepSpec, twiceChangedEvent] <;>
    split_ifs <;>
    simp [emit, writeOut, a, b, c]

theorem compileModule_run_keep (o : Options) (w : World) (M : Module) (BOS DwoOut : Bool)
    (st : State) (h : NoKeep st) : KeepSpec (compileModule_run o w M BOS DwoOut st) :=
  compileModule_finish_keep o BOS DwoOut _ _
    (NoKeep_PM_run w M BOS _ (NoKeep_firstRun o w M BOS _
      (NoKeep_emit st _ h (by simp) (by simp) (by simp [twiceChangedEvent]))))

theorem NoKeep_foldl_PM_add (Ps : List PassId) (st : State) (h : NoKeep st) :
    NoKeep (Ps.foldl PM_add st) := by
  induction Ps generalizing st with
  | nil => exact h
  | cons P Ps ih => exact ih (PM_add st P) (NoKeep_PM_add st P h)

theorem NoKeep_addPass (progName : String) (w : World) (NoVerify : Bool) (PassName : String)
    (st : State) (h : NoKeep st) : NoKeep (addPass progName w NoVerify PassName st).2 := by
  unfold addPass
  split
  · exact h
  · have h1 : NoKeep (emit st (Event.getPassInfo PassName)) :=
      NoKeep_emit st _ h (by simp) (by simp) (by simp [twiceChangedEvent])
    split
    · exact NoKeep_emit _ _ h1 (by simp) (by simp) (by simp [twiceChangedEvent])
    · split
      · exact NoKeep_foldl_PM_add _ _ (NoKeep_PM_add _ _ h1)
      · exact NoKeep_emit _ _ h1 (by simp) (by simp) (by simp [twiceChangedEvent])

theorem NoKeep_addPassLoop (progName : String) (w : World) (NoVerify : Bool)
    (names : List String) (st : State) (h : NoKeep st) :
    NoKeep (addPassLoop progName w NoVerify names st).2 := by
  induction names generalizing st with
  | nil => exact h
  | cons n names ih =>
    simp only [addPassLoop]
    split
    · exact NoKeep_addPass progName w NoVerify n st h
    · exact ih _ (NoKeep_addPass progName w NoVerify n st h)

theorem NoKeep_compileModule_passes (progName : String) (o : Options) (w : World)
    (MIR : Option MIRParser) (Target : TargetMachine) (DwoOut : Bool) (st : State)
    (h : NoKeep st) : NoKeep (compileModule_passes progName o w MIR Target DwoOut st).2 := by
  unfold compileModule_passes
  split
  · split
    · exact NoKeep_emit _ _ h (by simp) (by simp) (by simp [twiceChangedEvent])
    · have h1 : NoKeep (emit st Event.createPassConfig) :=
        NoKeep_emit st _ h (by simp) (by simp) (by simp [twiceChangedEvent])
      simp only []
      split
      · exact NoKeep_emit _ _ h1 (by simp) (by simp) (by simp [twiceChangedEvent])
      · have h2 := NoKeep_addPassLoop progName w o.NoVerify o.RunPassNames _
          (NoKeep_foldl_PM_add (w.printAndVerify o.NoVerify "") _
            (NoKeep_PM_add _ PassId.MachineModuleInfo
              (NoKeep_PM_add _ PassId.TargetPassConfig h1)))
        split
        · exact h2
        · exact NoKeep_PM_add _ _ (NoKeep_PM_add _ _ h2)
  · have h1 : NoKeep (emit st Event.addPassesToEmitFile) :=
      NoKeep_emit st _ h (by simp) (by simp) (by simp [twiceChangedEvent])
    simp only []
    split
    · exact NoKeep_emit _ _ h1 (by simp) (by simp) (by simp [twiceChangedEvent])
    · exact NoKeep_PM_add _ _ h1

theorem compileModule_pipeline_keep (progName : String) (o : Options) (w : World)
    (MIR : Option MIRParser) (M : Module) (Target : TargetMachine) (Out : ToolOutputFile)
    (DwoOut : Bool) (st : State) (h : NoKeep st) :
    KeepSpec (compileModule_pipeline progName o w MIR M Target Out DwoOut st) := by
  have h1 := NoKeep_compileModule_passes progName o w MIR Target DwoOut st h
  unfold compileModule_pipeline
  simp only []
  split
  · exact KeepSpec_fail _ h1
  · split
    · have h2 := NoKeep_emit _ Event.parseMachineFunctions h1 (by simp) (by simp)
        (by simp [twiceChangedEvent])
      split
      · exact KeepSpec_fail _ h2
      · exact compileModule_run_keep _ _ _ _ _ _ h2
    · exact compileModule_run_keep _ _ _ _ _ _ h1

theorem compileModule_verify_keep (progName : String) (o : Options) (w : World)
    (MIR : Option MIRParser) (M : Module) (Target : TargetMachine) (Out : ToolOutputFile)
    (DwoOut : Bool) (st : State) (h : NoKeep st) :
    KeepSpec (compileModule_verify progName o w MIR M Target Out DwoOut st) := by
  unfold compileModule_verify
  simp only []
  have h3 : NoKeep (deliver (emit (emit (PM_add st
      (PassId.TargetLibraryInfoWrapperPass o.DisableSimplifyLibCalls))
      (Event.setDataLayout (w.createDataLayout Target))) Event.UpgradeDebugInfo)
      (w.UpgradeDebugInfo { M with DataLayout := w.createDataLayout Target }).2) :=
    NoKeep_deliver _ _ (NoKeep_emit _ _ (NoKeep_emit _ _ (NoKeep_PM_add _ _ h)
      (by simp) (by simp) (by simp [twiceChangedEvent]))
      (by simp) (by simp) (by simp [twiceChangedEvent]))
  have h4 : ∀ M2 : Module, NoKeep (if (!o.NoVerify) = true then
      emit (deliver (emit (emit (PM_add st
        (PassId.TargetLibraryInfoWrapperPass o.DisableSimplifyLibCalls))
        (Event.setDataLayout (w.createDataLayout Target))) Event.UpgradeDebugInfo)
        (w.UpgradeDebugInfo { M with DataLayout := w.createDataLayout Target }).2)
        (Event.verifyModule M2)
      else deliver (emit (emit (PM_add st
        (PassId.TargetLibraryInfoWrapperPass o.DisableSimplifyLibCalls))
        (Event.setDataLayout (w.createDataLayout Target))) Event.UpgradeDebugInfo)
        (w.UpgradeDebugInfo { M with DataLayout := w.createDataLayout Target }).2) := by
    intro M2
    split
    · exact NoKeep_emit _ _ h3 (by simp) (by simp) (by simp [twiceChangedEvent])
    · exact h3
  split
  · exact KeepSpec_fail _ (NoKeep_emit _ _ (h4 _) (by simp) (by simp)
      (by simp [twiceChangedEvent]))
  · apply compileModule_pipeline_keep
    split
    · exact NoKeep_emit _ _ (h4 _) (by simp) (by simp) (by simp [twiceChangedEvent])
    · exact h4 _

theorem compileModule_output_keep (progName : String) (o : Options) (w : World)
    (MIR : Option MIRParser) (M : Module) (Target : TargetMachine) (st : State)
    (h : NoKeep st) : KeepSpec (compileModule_output progName o w MIR M Target st) := by
  have h1 : NoKeep (emit st (Event.openOutput o.OutputFilename)) :=
    NoKeep_emit st _ h (by simp) (by simp) (by simp [twiceChangedEvent])
  unfold compileModule_output GetOutputStream
  cases hopen : w.openFile o.OutputFilename with
  | error EC =>
    exact KeepSpec_fail _ (NoKeep_emit _ _ h1 (by simp) (by simp) (by simp [twiceChangedEvent]))
  | ok Out =>
    simp only []
    have h2 : NoKeep (emit (emit st (Event.openOutput o.OutputFilename))
        (Event.openDwo o.SplitDwarfOutputFile)) :=
      NoKeep_emit _ _ h1 (by simp) (by simp) (by simp [twiceChangedEvent])
    split
    · split
      · exact KeepSpec_fail _ (NoKeep_emit _ _ h2 (by simp) (by simp)
          (by simp [twiceChangedEvent]))
      · exact compileModule_verify_keep _ _ _ _ _ _ _ _ _ h2
    · exact compileModule_verify_keep _ _ _ _ _ _ _ _ _ h1

theorem compileModule_keepSpec (progName : String) (o : Options) (w : World) (HasError : Bool) :
    KeepSpec (compileModule progName o w HasError) := by
  have h0 : NoKeep (initState HasError) := by simp [NoKeep, initState]
  have h1 : NoKeep (deliver (emit (initState HasError) (Event.parseIRFile o.InputFilename))
      (w.parseIRFile o.InputFilename).2) :=
    NoKeep_deliver _ _ (NoKeep_emit _ _ h0 (by simp) (by simp) (by simp [twiceChangedEvent]))
  unfold compileModule
  simp only []
  split
  · exact KeepSpec_fail _ (NoKeep_emit _ _ h1 (by simp) (by simp) (by simp [twiceChangedEvent]))
  · have h2 := fun a b => NoKeep_emit _ (Event.lookupTarget a b) h1 (by simp) (by simp)
      (by simp [twiceChangedEvent])
    split
    · exact KeepSpec_fail _ (NoKeep_emit _ _ (h2 _ _) (by simp) (by simp)
        (by simp [twiceChangedEvent]))
    · split
      · exact KeepSpec_fail _ (NoKeep_emit _ _ (h2 _ _) (by simp) (by simp)
          (by simp [twiceChangedEvent]))
      · exact compileModule_output_keep _ _ _ _ _ _ _ (NoKeep_emit _ _ (h2 _ _) (by simp)
          (by simp) (by simp [twiceChangedEvent]))

/-! ## The sticky flag -/

theorem raisedError_append (a b : List Event) :
    raisedError (a ++ b) = (raisedError a || raisedError b) := by
  simp [raisedError, List.any_append]

theorem raisedError_handlerOutput (ds : List Diag) :
    raisedError (handlerOutput ds) = ds.any Diag.isError := by
  induction ds with
  | nil => rfl
  | cons d ds ih =>
    rw [handlerOutput, raisedError_append, ih, List.any_cons]
    congr 1
    cases d with
    | ir DI =>
      simp only [handlerOutput1]
      split <;> simp [raisedError, Event.isErrorDiag]
    | inlineAsm SMD c =>
      simp only [handlerOutput1]
      split <;> simp [raisedError, Event.isErrorDiag]

theorem FlagOK_emit (init : Bool) (st : State) (e : Event) (h : FlagOK init st)
    (he : e.isErrorDiag = false) : FlagOK init (emit st e) := by
  simp only [FlagOK, emit, raisedError_append] at h ⊢
  simp [h, raisedError, he]

theorem FlagOK_deliver (init : Bool) (st : State) (ds : List Diag) (h : FlagOK init st) :
    FlagOK init (deliver st ds) := by
  simp only [FlagOK, deliver_HasError, deliver_trace, raisedError_append,
    raisedError_handlerOutput] at h ⊢
  rw [h, Bool.or_assoc]

theorem FlagOK_PM_add (init : Bool) (st : State) (P : PassId) (h : FlagOK init st) :
    FlagOK init (PM_add st P) := by
  simp only [FlagOK, PM_add, raisedError_append] at h ⊢
  simp [h, raisedError, Event.isErrorDiag]

theorem FlagOK_foldl_PM_add (init : Bool) (Ps : List PassId) (st : State)
    (h : FlagOK init st) : FlagOK init (Ps.foldl PM_add st) := by
  induction Ps generalizing st with
  | nil => exact h
  | cons P Ps ih => exact ih (PM_add st P) (FlagOK_PM_add init st P h)

theorem FlagOK_PM_run (init : Bool) (w : World) (M : Module) (BOS : Bool) (st : State)
    (h : FlagOK init st) : FlagOK init (PM_run w M BOS st) := by
  simp only [FlagOK, PM_run_HasError, PM_run_trace, raisedError_append] at h ⊢
  rw [h, Bool.or_assoc]
  congr 1
  have : raisedError (Event.PM_run M (w.PM_run st.runs st.PM M).bytes ::
      handlerOutput (w.PM_run st.runs st.PM M).diags) =
      raisedError (handlerOutput (w.PM_run st.runs st.PM M).diags) := by
    simp [raisedError, Event.isErrorDiag]
  rw [this, raisedError_handlerOutput]

theorem FlagOK_writeOut (init : Bool) (st : State) (h : FlagOK init st) :
    FlagOK init (writeOut st) := by
  simp only [FlagOK, writeOut, emit, raisedError_append] at h ⊢
  simp [h, raisedError, Event.isErrorDiag]

theorem FlagSpec_fail (init : Bool) (st : State) (h : FlagOK init st) :
    FlagSpec init ⟨1, st⟩ :=
  ⟨h, fun _ => rfl⟩

theorem FlagOK_firstRun (init : Bool) (o : Options) (w : World) (M : Module) (BOS : Bool)
    (st : State) (h : FlagOK init st) : FlagOK init (compileModule_firstRun o w M BOS st).1 := by
  unfold compileModule_firstRun
  split
  · exact FlagOK_PM_run init w M BOS _ (FlagOK_emit init st _ h rfl)
  · exact h

theorem compileModule_finish_flag (init : Bool) (o : Options) (BOS DwoOut : Bool)
    (CTB : List Nat) (st : State) (h : FlagOK init st) :
    FlagSpec init (compileModule_finish o BOS DwoOut CTB st) := by
  unfold compileModule_finish
  split
  · exact FlagSpec_fail init _ h
  · rename_i hne
    split
    · exact FlagSpec_fail init _
        (FlagOK_emit init _ _ (FlagOK_writeOut init _ (FlagOK_emit init _ _ h rfl)) rfl)
    · have h5 : FlagOK init (if BOS = true then writeOut st else st) := by
        split
        · exact FlagOK_writeOut init _ h
        · exact h
      have h6 := FlagOK_emit init _ Event.keepOut h5 rfl
      refine ⟨?_, ?_⟩
      · simp only []
        split
        · exact FlagOK_emit init _ Event.keepDwo h6 rfl
        · exact h6
      · intro hset
        exfalso
        apply hne
        cases BOS <;> cases DwoOut <;> simpa [emit, writeOut] using hset

theorem compileModule_run_flag (init : Bool) (o : Options) (w : World) (M : Module)
    (BOS DwoOut : Bool) (st : State) (h : FlagOK init st) :
    FlagSpec init (compileModule_run o w M BOS DwoOut st) :=
  compileModule_finish_flag init o BOS DwoOut _ _
    (FlagOK_PM_run init w M BOS _ (FlagOK_firstRun init o w M BOS _
      (FlagOK_emit init st _ h rfl)))

theorem FlagOK_addPass (init : Bool) (progName : String) (w : World) (NoVerify : Bool)
    (PassName : String) (st : State) (h : FlagOK init st) :
    FlagOK init (addPass progName w NoVerify PassName st).2 := by
  unfold addPass
  split
  · exact h
  · have h1 := FlagOK_emit init st (Event.getPassInfo PassName) h rfl
    split
    · exact FlagOK_emit init _ _ h1 rfl
    · split
      · exact FlagOK_foldl_PM_add init _ _ (FlagOK_PM_add init _ _ h1)
      · exact FlagOK_emit init _ _ h1 rfl

theorem FlagOK_addPassLoop (init : Bool) (progName : String) (w : World) (NoVerify : Bool)
    (names : List String) (st : State) (h : FlagOK init st) :
    FlagOK init (addPassLoop progName w NoVerify names st).2 := by
  induction names generalizing st with
  | nil => exact h
  | cons n names ih =>
    simp only [addPassLoop]
    split
    · exact FlagOK_addPass init progName w NoVerify n st h
    · exact ih _ (FlagOK_addPass init progName w NoVerify n st h)

theorem FlagOK_compileModule_passes (init : Bool) (progName : String) (o : Options)
    (w : World) (MIR : Option MIRParser) (Target : TargetMachine) (DwoOut : Bool) (st : State)
    (h : FlagOK init st) :
    FlagOK init (compileModule_passes progName o w MIR Target DwoOut st).2 := by
  unfold compileModule_passes
  split
  · split
    · exact FlagOK_emit init _ _ h rfl
    · have h1 := FlagOK_emit init st Event.createPassConfig h rfl
      simp only []
      split
      · exact FlagOK_emit init _ _ h1 rfl
      · have h2 := FlagOK_addPassLoop init progName w o.NoVerify o.RunPassNames _
          (FlagOK_foldl_PM_add init (w.printAndVerify o.NoVerify "") _
            (FlagOK_PM_add init _ PassId.MachineModuleInfo
              (FlagOK_PM_add init _ PassId.TargetPassConfig h1)))
        split
        · exact h2
        · exact FlagOK_PM_add init _ _ (FlagOK_PM_add init _ _ h2)
  · have h1 := FlagOK_emit init st Event.addPassesToEmitFile h rfl
    simp only []
    split
    · exact FlagOK_emit init _ _ h1 rfl
    · exact FlagOK_PM_add init _ _ h1

theorem compileModule_pipeline_flag (init : Bool) (progName : String) (o : Options)
    (w : World) (MIR : Option MIRParser) (M : Module) (Target : TargetMachine)
    (Out : ToolOutputFile) (DwoOut : Bool) (st : State) (h : FlagOK init st) :
    FlagSpec init (compileModule_pipeline progName o w MIR M Target Out DwoOut st) := by
  have h1 := FlagOK_compileModule_passes init progName o w MIR Target DwoOut st h
  unfold compileModule_pipeline
  simp only []
  split
  · exact FlagSpec_fail init _ h1
  · split
    · have h2 := FlagOK_emit init _ Event.parseMachineFunctions h1 rfl
      split
      · exact FlagSpec_fail init _ h2
      · exact compileModule_run_flag init _ _ _ _ _ _ h2
    · exact compileModule_run_flag init _ _ _ _ _ _ h1

theorem compileModule_verify_flag (init : Bool) (progName : String) (o : Options)
    (w : World) (MIR : Option MIRParser) (M : Module) (Target : TargetMachine)
    (Out : ToolOutputFile) (DwoOut : Bool) (st : State) (h : FlagOK init st) :
    FlagSpec init (compileModule_verify progName o w MIR M Target Out DwoOut st) := by
  unfold compileModule_verify
  simp only []
  have h3 : FlagOK init (deliver (emit (emit (PM_add st
      (PassId.TargetLibraryInfoWrapperPass o.DisableSimplifyLibCalls))
      (Event.setDataLayout (w.createDataLayout Target))) Event.UpgradeDebugInfo)
      (w.UpgradeDebugInfo { M with DataLayout := w.createDataLayout Target }).2) :=
    FlagOK_deliver init _ _ (FlagOK_emit init _ _ (FlagOK_emit init _ _
      (FlagOK_PM_add init _ _ h) rfl) rfl)
  have h4 : ∀ M2 : Module, FlagOK init (if (!o.NoVerify) = true then
      emit (deliver (emit (emit (PM_add st
        (PassId.TargetLibraryInfoWrapperPass o.DisableSimplifyLibCalls))
        (Event.setDataLayout (w.createDataLayout Target))) Event.UpgradeDebugInfo)
        (w.UpgradeDebugInfo { M with DataLayout := w.createDataLayout Target }).2)
        (Event.verifyModule M2)
      else deliver (emit (emit (PM_add st
        (PassId.TargetLibraryInfoWrapperPass o.DisableSimplifyLibCalls))
        (Event.setDataLayout (w.createDataLayout Target))) Event.UpgradeDebugInfo)
        (w.UpgradeDebugInfo { M with DataLayout := w.createDataLayout Target }).2) := by
    intro M2
    split
    · exact FlagOK_emit init _ _ h3 rfl
    · exact h3
  split
  · exact FlagSpec_fail init _ (FlagOK_emit init _ _ (h4 _) rfl)
  · apply compileModule_pipeline_flag
    split
    · exact FlagOK_emit init _ _ (h4 _) rfl
    · exact h4 _

theorem compileModule_output_flag (init : Bool) (progName : String) (o : Options)
    (w : World) (MIR : Option MIRParser) (M : Module) (Target : TargetMachine) (st : State)
    (h : FlagOK init st) :
    FlagSpec init (compileModule_output progName o w MIR M Target st) := by
  have h1 := FlagOK_emit init st (Event.openOutput o.OutputFilename) h rfl
  unfold compileModule_output GetOutputStream
  cases hopen : w.openFile o.OutputFilename with
  | error EC => exact FlagSpec_fail init _ (FlagOK_emit init _ _ h1 rfl)
  | ok Out =>
    simp only []
    have h2 := FlagOK_emit init _ (Event.openDwo o.SplitDwarfOutputFile) h1 rfl
    split
    · split
      · exact FlagSpec_fail init _ (FlagOK_emit init _ _ h2 rfl)
      · exact compileModule_verify_flag init _ _ _ _ _ _ _ _ _ h2
    · exact compileModule_verify_flag init _ _ _ _ _ _ _ _ _ h1

theorem compileModule_flagSpec (progName : String) (o : Options) (w : World)
    (HasError : Bool) : FlagSpec HasError (compileModule progName o w HasError) := by
  have h0 : FlagOK HasError (initState HasError) := by simp [FlagOK, initState, raisedError]
  have h1 := FlagOK_deliver HasError _ (w.parseIRFile o.InputFilename).2
    (FlagOK_emit HasError _ (Event.parseIRFile o.InputFilename) h0 rfl)
  unfold compileModule
  simp only []
  split
  · exact FlagSpec_fail HasError _ (FlagOK_emit HasError _ _ h1 rfl)
  · have h2 := fun a b => FlagOK_emit HasError _ (Event.lookupTarget a b) h1 rfl
    split
    · exact FlagSpec_fail HasError _ (FlagOK_emit HasError _ _ (h2 _ _) rfl)
    · split
      · exact FlagSpec_fail HasError _ (FlagOK_emit HasError _ _ (h2 _ _) rfl)
      · exact compileModule_output_flag HasError _ _ _ _ _ _ _
          (FlagOK_emit HasError _ _ (h2 _ _) rfl)

/-! ## The shape of an execution: early failure, or the run block -/

theorem preRun_of_fromHandler (e : Event) (h : e.fromHandler = true) : e.preRun = true := by
  cases e <;> first | rfl | (simp [Event.fromHandler] at h)
  rename_i c p m
  cases c <;> cases m <;> first | rfl | (simp [Event.fromHandler] at h)

theorem PreRun_emit (st : State) (e : Event) (h : PreRun st) (he : e.preRun = true) :
    PreRun (emit st e) := by
  obtain ⟨a, b, c, d⟩ := h
  refine ⟨?_, b, c, d⟩
  intro x hx
  simp only [emit, List.mem_append, List.mem_singleton] at hx
  rcases hx with hx | hx
  · exact a x hx
  · rw [hx]; exact he

theorem PreRun_deliver (st : State) (ds : List Diag) (h : PreRun st) :
    PreRun (deliver st ds) := by
  obtain ⟨a, b, c, d⟩ := h
  refine ⟨?_, by simpa using b, by simpa using c, by simpa using d⟩
  intro x hx
  simp only [deliver_trace, List.mem_append] at hx
  rcases hx with hx | hx
  · exact a x hx
  · exact preRun_of_fromHandler x (fromHandler_of_mem_handlerOutput ds x hx)

theorem PreRun_PM_add (st : State) (P : PassId) (h : PreRun st) : PreRun (PM_add st P) := by
  obtain ⟨a, b, c, d⟩ := h
  refine ⟨?_, b, c, d⟩
  intro x hx
  simp only [PM_add, List.mem_append, List.mem_singleton] at hx
  rcases hx with hx | hx
  · exact a x hx
  · rw [hx]; rfl

theorem PreRun_foldl_PM_add (Ps : List PassId) (st : State) (h : PreRun st) :
    PreRun (Ps.foldl PM_add st) := by
  induction Ps generalizing st with
  | nil => exact h
  | cons P Ps ih => exact ih (PM_add st P) (PreRun_PM_add st P h)

theorem PreRun_addPass (progName : String) (w : World) (NoVerify : Bool) (PassName : String)
    (st : State) (h : PreRun st) : PreRun (addPass progName w NoVerify PassName st).2 := by
  unfold addPass
  split
  · exact h
  · have h1 := PreRun_emit st (Event.getPassInfo PassName) h rfl
    split
    · exact PreRun_emit _ _ h1 rfl
    · split
      · exact PreRun_foldl_PM_add _ _ (PreRun_PM_add _ _ h1)
      · exact PreRun_emit _ _ h1 rfl

theorem PreRun_addPassLoop (progName : String) (w : World) (NoVerify : Bool)
    (names : List String) (st : State) (h : PreRun st) :
    PreRun (addPassLoop progName w NoVerify names st).2 := by
  induction names generalizing st with
  | nil => exact h
  | cons n names ih =>
    simp only [addPassLoop]
    split
    · exact PreRun_addPass progName w NoVerify n st h
    · exact ih _ (PreRun_addPass progName w NoVerify n st h)

theorem PreRun_compileModule_passes (progName : String) (o : Options) (w : World)
    (MIR : Option MIRParser) (Target : TargetMachine) (DwoOut : Bool) (st : State)
    (h : PreRun st) : PreRun (compileModule_passes progName o w MIR Target DwoOut st).2 := by
  unfold compileModule_passes
  split
  · split
    · exact PreRun_emit _ _ h rfl
    · have h1 := PreRun_emit st Event.createPassConfig h rfl
      simp only []
      split
      · exact PreRun_emit _ _ h1 rfl
      · have h2 := PreRun_addPassLoop progName w o.NoVerify o.RunPassNames _
          (PreRun_foldl_PM_add (w.printAndVerify o.NoVerify "") _
            (PreRun_PM_add _ PassId.MachineModuleInfo
              (PreRun_PM_add _ PassId.TargetPassConfig h1)))
        split
        · exact h2
        · exact PreRun_PM_add _ _ (PreRun_PM_add _ _ h2)
  · have h1 := PreRun_emit st Event.addPassesToEmitFile h rfl
    simp only []
    split
    · exact PreRun_emit _ _ h1 rfl
    · exact PreRun_PM_add _ _ h1

theorem Shape_fail (o : Options) (w : World) (st : State) (h : PreRun st) :
    Shape o w ⟨1, st⟩ :=
  Or.inl ⟨st, rfl, h⟩

theorem compileModule_pipeline_shape (progName : String) (o : Options) (w : World)
    (MIR : Option MIRParser) (M : Module) (Target : TargetMachine) (Out : ToolOutputFile)
    (st : State) (hOut : w.openFile o.OutputFilename = Except.ok Out) (h : PreRun st) :
    Shape o w (compileModule_pipeline progName o w MIR M Target Out
      (!o.SplitDwarfOutputFile.isEmpty) st) := by
  have h1 := PreRun_compileModule_passes progName o w MIR Target
    (!o.SplitDwarfOutputFile.isEmpty) st h
  unfold compileModule_pipeline
  simp only []
  split
  · exact Shape_fail o w _ h1
  · split
    · have h2 := PreRun_emit _ Event.parseMachineFunctions h1 rfl
      split
      · exact Shape_fail o w _ h2
      · exact Or.inr ⟨M, Out, _, hOut, h2, rfl⟩
    · exact Or.inr ⟨M, Out, _, hOut, h1, rfl⟩

theorem compileModule_verify_shape (progName : String) (o : Options) (w : World)
    (MIR : Option MIRParser) (M : Module) (Target : TargetMachine) (Out : ToolOutputFile)
    (st : State) (hOut : w.openFile o.OutputFilename = Except.ok Out) (h : PreRun st) :
    Shape o w (compileModule_verify progName o w MIR M Target Out
      (!o.SplitDwarfOutputFile.isEmpty) st) := by
  unfold compileModule_verify
  simp only []
  have h3 : PreRun (deliver (emit (emit (PM_add st
      (PassId.TargetLibraryInfoWrapperPass o.DisableSimplifyLibCalls))
      (Event.setDataLayout (w.createDataLayout Target))) Event.UpgradeDebugInfo)
      (w.UpgradeDebugInfo { M with DataLayout := w.createDataLayout Target }).2) :=
    PreRun_deliver _ _ (PreRun_emit _ _ (PreRun_emit _ _ (PreRun_PM_add _ _ h) rfl) rfl)
  have h4 : ∀ M2 : Module, PreRun (if (!o.NoVerify) = true then
      emit (deliver (emit (emit (PM_add st
        (PassId.TargetLibraryInfoWrapperPass o.DisableSimplifyLibCalls))
        (Event.setDataLayout (w.createDataLayout Target))) Event.UpgradeDebugInfo)
        (w.UpgradeDebugInfo { M with DataLayout := w.createDataLayout Target }).2)
        (Event.verifyModule M2)
      else deliver (emit (emit (PM_add st
        (PassId.TargetLibraryInfoWrapperPass o.DisableSimplifyLibCalls))
        (Event.setDataLayout (w.createDataLayout Target))) Event.UpgradeDebugInfo)
        (w.UpgradeDebugInfo { M with DataLayout := w.createDataLayout Target }).2) := by
    intro M2
    split
    · exact PreRun_emit _ _ h3 rfl
    · exact h3
  split
  · exact Shape_fail o w _ (PreRun_emit _ _ (h4 _) rfl)
  · apply compileModule_pipeline_shape _ _ _ _ _ _ _ _ hOut
    split
    · exact PreRun_emit _ _ (h4 _) rfl
    · exact h4 _

theorem compileModule_output_shape (progName : String) (o : Options) (w : World)
    (MIR : Option MIRParser) (M : Module) (Target : TargetMachine) (st : State)
    (h : PreRun st) : Shape o w (compileModule_output progName o w MIR M Target st) := by
  have h1 := PreRun_emit st (Event.openOutput o.OutputFilename) h rfl
  unfold compileModule_output GetOutputStream
  cases hopen : w.openFile o.OutputFilename with
  | error EC => exact Shape_fail o w _ (PreRun_emit _ _ h1 rfl)
  | ok Out =>
    simp only []
    have h2 := PreRun_emit _ (Event.openDwo o.SplitDwarfOutputFile) h1 rfl
    split
    · rename_i hd
      split
      · exact Shape_fail o w _ (PreRun_emit _ _ h2 rfl)
      · have := compileModule_verify_shape progName o w MIR M Target Out _ hopen h2
        rw [hd] at this
        exact this
    · rename_i hd
      have := compileModule_verify_shape progName o w MIR M Target Out _ hopen h1
      simp only [Bool.not_eq_true] at hd
      rw [hd] at this
      exact this

theorem compileModule_shape (progName : String) (o : Options) (w : World) (HasError : Bool) :
    Shape o w (compileModule progName o w HasError) := by
  have h0 : PreRun (initState HasError) := by simp [PreRun, initState]
  have h1 := PreRun_deliver _ (w.parseIRFile o.InputFilename).2
    (PreRun_emit _ (Event.parseIRFile o.InputFilename) h0 rfl)
  unfold compileModule
  simp only []
  split
  · exact Shape_fail o w _ (PreRun_emit _ _ h1 rfl)
  · have h2 := fun a b => PreRun_emit _ (Event.lookupTarget a b) h1 rfl
    split
    · exact Shape_fail o w _ (PreRun_emit _ _ (h2 _ _) rfl)
    · split
      · exact Shape_fail o w _ (PreRun_emit _ _ (h2 _ _) rfl)
      · exact compileModule_output_shape _ _ _ _ _ _ _ (PreRun_emit _ _ (h2 _ _) rfl)

/-! ## The run block -/

theorem memcmp_eq_zero_iff (a b : List Nat) (h : a.length = b.length) :
    memcmp a b a.length = 0 ↔ a = b := by
  induction a generalizing b with
  | nil =>
    cases b with
    | nil => simp [memcmp]
    | cons y ys => simp at h
  | cons x xs ih =>
    cases b with
    | nil => simp at h
    | cons y ys =>
      simp only [List.length_cons, Nat.add_right_cancel_iff] at h
      simp only [List.length_cons, memcmp, List.cons.injEq]
      split
      · rename_i hlt
        constructor
        · intro h0; exact absurd h0 (by decide)
        · intro h0; omega
      · split
        · rename_i hgt
          constructor
          · intro h0; exact absurd h0 (by decide)
          · intro h0; omega
        · rw [ih ys h]
          constructor
          · intro h0; exact ⟨by omega, h0⟩
          · intro h0; exact h0.2

theorem buffers_differ_iff (Buffer CTB : List Nat) :
    (Buffer.length != CTB.length || memcmp Buffer CTB Buffer.length != 0) = true ↔
      Buffer ≠ CTB := by
  by_cases hl : Buffer.length = CTB.length
  · have := memcmp_eq_zero_iff Buffer CTB hl
    simp only [hl, bne_self_eq_false, Bool.false_or, bne_iff_ne, ne_eq]
    rw [← hl, this]
  · have hne : Buffer ≠ CTB := fun h => hl (by rw [h])
    simp [hl, hne]

theorem runBytes_append (a b : List Event) : runBytes (a ++ b) = runBytes a ++ runBytes b := by
  induction a with
  | nil => rfl
  | cons e a ih => cases e <;> simp [runBytes, ih]

theorem writes_append (a b : List Event) : writes (a ++ b) = writes a ++ writes b := by
  induction a with
  | nil => rfl
  | cons e a ih => cases e <;> simp [writes, ih]

theorem runBytes_of_preRun (l : List Event) (h : ∀ e ∈ l, e.preRun = true) :
    runBytes l = [] := by
  induction l with
  | nil => rfl
  | cons e l ih =>
    have he := h e (List.mem_cons_self e l)
    have hl := ih (fun x hx => h x (List.mem_cons_of_mem e hx))
    cases e <;> first | (simpa [runBytes] using hl) | (simp [Event.preRun] at he)

theorem writes_of_preRun (l : List Event) (h : ∀ e ∈ l, e.preRun = true) :
    writes l = [] := by
  induction l with
  | nil => rfl
  | cons e l ih =>
    have he := h e (List.mem_cons_self e l)
    have hl := ih (fun x hx => h x (List.mem_cons_of_mem e hx))
    cases e <;> first | (simpa [writes] using hl) | (simp [Event.preRun] at he)

theorem preRun_handlerOutput (ds : List Diag) : ∀ e ∈ handlerOutput ds, e.preRun = true :=
  fun e he => preRun_of_fromHandler e (fromHandler_of_mem_handlerOutput ds e he)

@[simp] theorem runBytes_handlerOutput (ds : List Diag) : runBytes (handlerOutput ds) = [] :=
  runBytes_of_preRun _ (preRun_handlerOutput ds)

@[simp] theorem writes_handlerOutput (ds : List Diag) : writes (handlerOutput ds) = [] :=
  writes_of_preRun _ (preRun_handlerOutput ds)

/-- The run block in compile-twice mode, started before any run: the two runs write
`b1` then `b2`; the buffer ends as `b2`; when they differ the result is 1, and if
moreover the flag is clear the destination receives `b2` and is kept. -/
theorem compileModule_run_twice (o : Options) (w : World) (M : Module) (DwoOut : Bool)
    (st : State) (hT : o.CompileTwice = true) (h : PreRun st) :
    runBytes (compileModule_run o w M true DwoOut st).st.trace =
      [(w.PM_run 0 st.PM M).bytes, (w.PM_run 1 st.PM M).bytes] ∧
    ((w.PM_run 0 st.PM M).bytes ≠ (w.PM_run 1 st.PM M).bytes →
      (compileModule_run o w M true DwoOut st).ret = 1 ∧
      ((compileModule_run o w M true DwoOut st).st.HasError = false →
        (compileModule_run o w M true DwoOut st).st.Out = (w.PM_run 1 st.PM M).bytes ∧
        Event.keepOut ∈ (compileModule_run o w M true DwoOut st).st.trace ∧
        twiceChangedEvent ∈ (compileModule_run o w M true DwoOut st).st.trace)) := by
  obtain ⟨a, b, c, d⟩ := h
  have ha := runBytes_of_preRun _ a
  have hd : (w.PM_run 0 st.PM M).bytes ≠ (w.PM_run 1 st.PM M).bytes →
      ((w.PM_run 1 st.PM M).bytes.length != (w.PM_run 0 st.PM M).bytes.length ||
        memcmp (w.PM_run 1 st.PM M).bytes (w.PM_run 0 st.PM M).bytes
          (w.PM_run 1 st.PM M).bytes.length != 0) = true :=
    fun hne => (buffers_differ_iff _ _).mpr (Ne.symm hne)
  simp only [compileModule_run, compileModule_firstRun, compileModule_finish, hT, if_true,
    PM_run_HasError, PM_run_Buffer, PM_run_runs, PM_run_PM, emit, b, c, d,
    List.nil_append, Bool.true_and, zero_add]
  constructor
  · cases DwoOut <;> split_ifs <;>
      simp [runBytes_append, runBytes, writeOut, emit, ha]
  · intro hne
    simp only [hd hne, if_true]
    split_ifs with hE
    · refine ⟨rfl, fun hF => ?_⟩
      simp only [PM_run_HasError, PM_run_runs, PM_run_PM] at hF
      rw [hF] at hE
      exact Bool.noConfusion hE
    · simp [writeOut, emit, b, c, twiceChangedEvent]


theorem finish_Buffer (o : Options) (BOS DwoOut : Bool) (CTB : List Nat) (st : State) :
    (compileModule_finish o BOS DwoOut CTB st).st.Buffer = st.Buffer := by
  cases BOS <;> cases DwoOut <;> simp only [compileModule_finish] <;> split_ifs <;>
    simp [emit, writeOut]

theorem finish_runBytes (o : Options) (BOS DwoOut : Bool) (CTB : List Nat) (st : State) :
    runBytes (compileModule_finish o BOS DwoOut CTB st).st.trace = runBytes st.trace := by
  cases BOS <;> cases DwoOut <;> simp only [compileModule_finish] <;> split_ifs <;>
    simp [emit, writeOut, runBytes_append, runBytes]

theorem finish_buffered (o : Options) (DwoOut : Bool) (CTB : List Nat) (st : State)
    (h0 : (compileModule_finish o true DwoOut CTB st).ret = 0) :
    (compileModule_finish o true DwoOut CTB st).st.Out = st.Out ++ st.Buffer ∧
    ∃ b, (compileModule_finish o true DwoOut CTB st).st.trace =
        st.trace ++ Event.writeOut st.Buffer :: b ∧
      writes b = [] ∧ runBytes b = [] := by
  cases DwoOut
  · simp only [compileModule_finish, ↓reduceIte, Bool.false_eq_true] at h0 ⊢
    split_ifs at h0 ⊢
    · simp at h0
    · simp at h0
    · exact ⟨by simp [emit, writeOut], [Event.keepOut], by simp [emit, writeOut], rfl, rfl⟩
  · simp only [compileModule_finish, ↓reduceIte] at h0 ⊢
    split_ifs at h0 ⊢
    · simp at h0
    · simp at h0
    · exact ⟨by simp [emit, writeOut], [Event.keepOut, Event.keepDwo],
        by simp [emit, writeOut], rfl, rfl⟩

theorem finish_streamed (o : Options) (DwoOut : Bool) (CTB : List Nat) (st : State)
    (hT : o.CompileTwice = false) :
    (compileModule_finish o false DwoOut CTB st).st.Out = st.Out ∧
    writes (compileModule_finish o false DwoOut CTB st).st.trace = writes st.trace := by
  cases DwoOut <;>
    simp only [compileModule_finish, hT, Bool.false_and, ↓reduceIte, Bool.false_eq_true] <;>
    split_ifs <;>
    simp [emit, writes_append, writes]

/-- The run block with the buffer in use, started before any run: the buffer ends
as the bytes of the last run (in compile-twice mode the two runs are recorded and
the buffer holds the second only), and on return 0 the destination holds the buffer,
copied by a single write that follows every run. -/
theorem compileModule_run_buffered (o : Options) (w : World) (M : Module) (DwoOut : Bool)
    (st : State) (h : PreRun st) :
    (runBytes (compileModule_run o w M true DwoOut st).st.trace).getLast? =
      some (compileModule_run o w M true DwoOut st).st.Buffer ∧
    (o.CompileTwice = true → ∃ b1,
      runBytes (compileModule_run o w M true DwoOut st).st.trace =
        [b1, (compileModule_run o w M true DwoOut st).st.Buffer]) ∧
    (o.CompileTwice = false →
      runBytes (compileModule_run o w M true DwoOut st).st.trace =
        [(compileModule_run o w M true DwoOut st).st.Buffer]) ∧
    ((compileModule_run o w M true DwoOut st).ret = 0 →
      (compileModule_run o w M true DwoOut st).st.Out =
        (compileModule_run o w M true DwoOut st).st.Buffer ∧
      ∃ a b, (compileModule_run o w M true DwoOut st).st.trace =
          a ++ Event.writeOut (compileModule_run o w M true DwoOut st).st.Buffer :: b ∧
        writes a = [] ∧ writes b = [] ∧ runBytes b = []) := by
  obtain ⟨a, b, c, d⟩ := h
  have ha := runBytes_of_preRun _ a
  have hw := writes_of_preRun _ a
  have key : ∃ b1s, runBytes (PM_run w M true (compileModule_firstRun o w M true
        (emit st Event.PrintOptionValues)).1).trace =
        b1s ++ [(PM_run w M true (compileModule_firstRun o w M true
          (emit st Event.PrintOptionValues)).1).Buffer] ∧
      (o.CompileTwice = true → b1s.length = 1) ∧ (o.CompileTwice = false → b1s = []) ∧
      writes (PM_run w M true (compileModule_firstRun o w M true
        (emit st Event.PrintOptionValues)).1).trace = [] ∧
      (PM_run w M true (compileModule_firstRun o w M true
        (emit st Event.PrintOptionValues)).1).Out = [] := by
    cases hT : o.CompileTwice
    · refine ⟨[], ?_, by simp, by simp, ?_, ?_⟩ <;>
        simp [compileModule_firstRun, hT, emit, runBytes_append, runBytes, writes_append,
          writes, ha, hw, b, c]
    · refine ⟨[(w.PM_run st.runs st.PM M).bytes], ?_, by simp, by simp, ?_, ?_⟩ <;>
        simp [compileModule_firstRun, hT, emit, runBytes_append, runBytes, writes_append,
          writes, ha, hw, b, c]
  obtain ⟨b1s, k1, k2, k3, k4, k5⟩ := key
  have hB := finish_Buffer o true DwoOut (compileModule_firstRun o w M true
    (emit st Event.PrintOptionValues)).2 (PM_run w M true (compileModule_firstRun o w M true
    (emit st Event.PrintOptionValues)).1)
  have hR := finish_runBytes o true DwoOut (compileModule_firstRun o w M true
    (emit st Event.PrintOptionValues)).2 (PM_run w M true (compileModule_firstRun o w M true
    (emit st Event.PrintOptionValues)).1)
  simp only [compileModule_run]
  rw [hB, hR, k1]
  refine ⟨by simp, ?_, ?_, ?_⟩
  · intro hT
    have hl := k2 hT
    match b1s, hl with
    | [x], _ => exact ⟨x, rfl⟩
  · intro hT
    rw [k3 hT]
    rfl
  · intro h0
    obtain ⟨f1, tl, f2, f3, f4⟩ := finish_buffered o DwoOut _ _ h0
    rw [f1, k5]
    exact ⟨rfl, _, tl, f2, k4, f3, f4⟩

/-- The run block without the buffer (so not in compile-twice mode), started before
any run: the single run writes straight to the destination, the buffer stays empty
and nothing is copied. -/
theorem compileModule_run_streamed (o : Options) (w : World) (M : Module) (DwoOut : Bool)
    (st : State) (hT : o.CompileTwice = false) (h : PreRun st) :
    runBytes (compileModule_run o w M false DwoOut st).st.trace =
      [(compileModule_run o w M false DwoOut st).st.Out] ∧
    (compileModule_run o w M false DwoOut st).st.Buffer = [] ∧
    writes (compileModule_run o w M false DwoOut st).st.trace = [] := by
  obtain ⟨a, b, c, d⟩ := h
  have ha := runBytes_of_preRun _ a
  have hw := writes_of_preRun _ a
  obtain ⟨f1, f2⟩ := finish_streamed o DwoOut (compileModule_firstRun o w M false
    (emit st Event.PrintOptionValues)).2 (PM_run w M false (compileModule_firstRun o w M false
    (emit st Event.PrintOptionValues)).1) hT
  simp only [compileModule_run]
  rw [finish_runBytes, finish_Buffer, f1, f2]
  simp [compileModule_firstRun, hT, emit, runBytes_append, runBytes, writes_append,
    writes, ha, hw, b, c]

/-! ## The trace only grows -/

theorem grows_emit (st : State) (e : Event) : st.trace <+: (emit st e).trace :=
  List.prefix_append _ _

theorem grows_deliver (st : State) (ds : List Diag) : st.trace <+: (deliver st ds).trace := by
  rw [deliver_trace]
  exact List.prefix_append _ _

theorem grows_PM_add (st : State) (P : PassId) : st.trace <+: (PM_add st P).trace :=
  List.prefix_append _ _

theorem grows_foldl_PM_add (Ps : List PassId) (st : State) :
    st.trace <+: (Ps.foldl PM_add st).trace := by
  induction Ps generalizing st with
  | nil => exact List.prefix_refl _
  | cons P Ps ih => exact (grows_PM_add st P).trans (ih (PM_add st P))

theorem grows_PM_run (w : World) (M : Module) (BOS : Bool) (st : State) :
    st.trace <+: (PM_run w M BOS st).trace := by
  rw [PM_run_trace]
  exact List.prefix_append _ _

theorem grows_addPass (progName : String) (w : World) (NoVerify : Bool) (PassName : String)
    (st : State) : st.trace <+: (addPass progName w NoVerify PassName st).2.trace := by
  unfold addPass
  split
  · exact List.prefix_refl _
  · split
    · exact (grows_emit _ _).trans (grows_emit _ _)
    · split
      · exact (grows_emit _ _).trans ((grows_PM_add _ _).trans (grows_foldl_PM_add _ _))
      · exact (grows_emit _ _).trans (grows_emit _ _)

theorem grows_addPassLoop (progName : String) (w : World) (NoVerify : Bool)
    (names : List String) (st : State) :
    st.trace <+: (addPassLoop progName w NoVerify names st).2.trace := by
  induction names generalizing st with
  | nil => exact List.prefix_refl _
  | cons n names ih =>
    simp only [addPassLoop]
    split
    · exact grows_addPass progName w NoVerify n st
    · exact (grows_addPass progName w NoVerify n st).trans (ih _)

theorem grows_compileModule_passes (progName : String) (o : Options) (w : World)
    (MIR : Option MIRParser) (Target : TargetMachine) (DwoOut : Bool) (st : State) :
    st.trace <+: (compileModule_passes progName o w MIR Target DwoOut st).2.trace := by
  unfold compileModule_passes
  split
  · split
    · exact grows_emit _ _
    · simp only []
      split
      · exact (grows_emit _ _).trans (grows_emit _ _)
      · have h2 := (grows_emit st Event.createPassConfig).trans ((grows_PM_add _
          PassId.TargetPassConfig).trans ((grows_PM_add _ PassId.MachineModuleInfo).trans
          ((grows_foldl_PM_add (w.printAndVerify o.NoVerify "") _).trans
          (grows_addPassLoop progName w o.NoVerify o.RunPassNames _))))
        split
        · exact h2
        · exact h2.trans ((grows_PM_add _ _).trans (grows_PM_add _ _))
  · simp only []
    split
    · exact (grows_emit _ _).trans (grows_emit _ _)
    · exact (grows_emit _ _).trans (grows_PM_add _ _)

theorem grows_firstRun (o : Options) (w : World) (M : Module) (BOS : Bool) (st : State) :
    st.trace <+: (compileModule_firstRun o w M BOS st).1.trace := by
  unfold compileModule_firstRun
  split
  · exact (grows_emit _ _).trans (grows_PM_run _ _ _ _)
  · exact List.prefix_refl _

theorem grows_finish (o : Options) (BOS DwoOut : Bool) (CTB : List Nat) (st : State) :
    st.trace <+: (compileModule_finish o BOS DwoOut CTB st).st.trace := by
  cases BOS <;> cases DwoOut <;> simp only [compileModule_finish] <;> split_ifs <;>
    simp [emit, writeOut]

theorem grows_run (o : Options) (w : World) (M : Module) (BOS DwoOut : Bool) (st : State) :
    st.trace <+: (compileModule_run o w M BOS DwoOut st).st.trace :=
  (grows_emit _ _).trans ((grows_firstRun o w M BOS _).trans
    ((grows_PM_run w M BOS _).trans (grows_finish o BOS DwoOut _ _)))

theorem grows_pipeline (progName : String) (o : Options) (w : World)
    (MIR : Option MIRParser) (M : Module) (Target : TargetMachine) (Out : ToolOutputFile)
    (DwoOut : Bool) (st : State) :
    st.trace <+: (compileModule_pipeline progName o w MIR M Target Out DwoOut st).st.trace := by
  have h1 := grows_compileModule_passes progName o w MIR Target DwoOut st
  unfold compileModule_pipeline
  simp only []
  split
  · exact h1
  · split
    · split
      · exact h1.trans (grows_emit _ _)
      · exact h1.trans ((grows_emit _ _).trans (grows_run _ _ _ _ _ _))
    · exact h1.trans (grows_run _ _ _ _ _ _)

theorem grows_verify (progName : String) (o : Options) (w : World)
    (MIR : Option MIRParser) (M : Module) (Target : TargetMachine) (Out : ToolOutputFile)
    (DwoOut : Bool) (st : State) :
    st.trace <+: (compileModule_verify progName o w MIR M Target Out DwoOut st).st.trace := by
  unfold compileModule_verify
  simp only []
  have h3 : st.trace <+: (deliver (emit (emit (PM_add st
      (PassId.TargetLibraryInfoWrapperPass o.DisableSimplifyLibCalls))
      (Event.setDataLayout (w.createDataLayout Target))) Event.UpgradeDebugInfo)
      (w.UpgradeDebugInfo { M with DataLayout := w.createDataLayout Target }).2).trace :=
    (grows_PM_add _ _).trans ((grows_emit _ _).trans ((grows_emit _ _).trans
      (grows_deliver _ _)))
  have h4 : ∀ M2 : Module, st.trace <+: (if (!o.NoVerify) = true then
      emit (deliver (emit (emit (PM_add st
        (PassId.TargetLibraryInfoWrapperPass o.DisableSimplifyLibCalls))
        (Event.setDataLayout (w.createDataLayout Target))) Event.UpgradeDebugInfo)
        (w.UpgradeDebugInfo { M with DataLayout := w.createDataLayout Target }).2)
        (Event.verifyModule M2)
      else deliver (emit (emit (PM_add st
        (PassId.TargetLibraryInfoWrapperPass o.DisableSimplifyLibCalls))
        (Event.setDataLayout (w.createDataLayout Target))) Event.UpgradeDebugInfo)
        (w.UpgradeDebugInfo { M with DataLayout := w.createDataLayout Target }).2).trace := by
    intro M2
    split
    · exact h3.trans (grows_emit _ _)
    · exact h3
  split
  · exact (h4 _).trans (grows_emit _ _)
  · refine List.IsPrefix.trans ?_ (grows_pipeline _ _ _ _ _ _ _ _ _)
    split
    · exact (h4 _).trans (grows_emit _ _)
    · exact h4 _

theorem grows_output (progName : String) (o : Options) (w : World)
    (MIR : Option MIRParser) (M : Module) (Target : TargetMachine) (st : State) :
    st.trace <+: (compileModule_output progName o w MIR M Target st).st.trace := by
  unfold compileModule_output GetOutputStream
  cases hopen : w.openFile o.OutputFilename with
  | error EC => exact (grows_emit _ _).trans (grows_emit _ _)
  | ok Out =>
    simp only []
    split
    · split
      · exact (grows_emit _ _).trans ((grows_emit _ _).trans (grows_emit _ _))
      · exact (grows_emit _ _).trans ((grows_emit _ _).trans
          (grows_verify _ _ _ _ _ _ _ _ _))
    · exact (grows_emit _ _).trans (grows_verify _ _ _ _ _ _ _ _ _)

/-! ## The first blocks of `compileModule` -/

theorem compileModule_of_parse_error (progName : String) (o : Options) (w : World)
    (HasError : Bool) (Err : SMDiagnostic)
    (hp : (w.parseIRFile o.InputFilename).1 = Except.error Err) :
    compileModule progName o w HasError =
      ⟨1, emit (deliver (emit (initState HasError) (Event.parseIRFile o.InputFilename))
        (w.parseIRFile o.InputFilename).2)
        (Event.errs HighlightColor.error progName (Message.parseError Err))⟩ := by
  unfold compileModule
  simp only [hp]

theorem compileModule_of_lookup_error (progName : String) (o : Options) (w : World)
    (HasError : Bool) (M0 : Module) (Error : String)
    (hp : (w.parseIRFile o.InputFilename).1 = Except.ok M0)
    (hl : w.lookupTarget o.MArch (resolveTriple w (overrideTriple o w M0)) =
      Except.error Error) :
    compileModule progName o w HasError =
      ⟨1, emit (stateAtLookup o w HasError M0)
        (Event.errs HighlightColor.error progName (Message.lookupError Error))⟩ := by
  unfold compileModule
  simp only [hp, hl, stateAtLookup]

theorem compileModule_of_invalid_level (progName : String) (o : Options) (w : World)
    (HasError : Bool) (M0 : Module) (T : Nat × String)
    (hp : (w.parseIRFile o.InputFilename).1 = Except.ok M0)
    (hl : w.lookupTarget o.MArch (resolveTriple w (overrideTriple o w M0)) = Except.ok T)
    (hs : switchOptLevel o.OptLevel = none) :
    compileModule progName o w HasError =
      ⟨1, emit (stateAtLookup o w HasError M0)
        (Event.errs HighlightColor.error progName Message.invalidOptLevel)⟩ := by
  unfold compileModule
  simp only [hp, hl, hs, stateAtLookup]

theorem compileModule_of_level (progName : String) (o : Options) (w : World)
    (HasError : Bool) (M0 : Module) (T : Nat × String) (OLvl : CodeGenOptLevel)
    (hp : (w.parseIRFile o.InputFilename).1 = Except.ok M0)
    (hl : w.lookupTarget o.MArch (resolveTriple w (overrideTriple o w M0)) = Except.ok T)
    (hs : switchOptLevel o.OptLevel = some OLvl) :
    compileModule progName o w HasError =
      compileModule_output progName o w none (overrideTriple o w M0) ⟨T.1, T.2, OLvl⟩
        (emit (stateAtLookup o w HasError M0)
          (Event.createTargetMachine ⟨T.1, T.2, OLvl⟩)) := by
  unfold compileModule
  simp only [hp, hl, hs, stateAtLookup]

theorem stateAtLookup_trace (o : Options) (w : World) (HasError : Bool) (M0 : Module) :
    (stateAtLookup o w HasError M0).trace =
      Event.parseIRFile o.InputFilename :: (handlerOutput (w.parseIRFile o.InputFilename).2 ++
        [Event.lookupTarget o.MArch (resolveTriple w (overrideTriple o w M0))]) := by
  simp [stateAtLookup, emit, initState]

theorem compileModule_output_of_open (progName : String) (o : Options) (w : World)
    (MIR : Option MIRParser) (HasError : Bool) (M0 : Module) (Target : TargetMachine)
    (Out : ToolOutputFile) (hOut : w.openFile o.OutputFilename = Except.ok Out)
    (hDwo : o.SplitDwarfOutputFile.isEmpty = false →
      ∃ D, w.openFile o.SplitDwarfOutputFile = Except.ok D) :
    compileModule_output progName o w MIR (overrideTriple o w M0) Target
        (emit (stateAtLookup o w HasError M0) (Event.createTargetMachine Target)) =
      compileModule_verify progName o w MIR (overrideTriple o w M0) Target Out
        (!o.SplitDwarfOutputFile.isEmpty) (stateAtOutputs o w HasError M0 Target) := by
  unfold compileModule_output GetOutputStream stateAtOutputs
  simp only [hOut]
  cases hd : o.SplitDwarfOutputFile.isEmpty
  · obtain ⟨D, hD⟩ := hDwo hd
    simp [hD]
  · simp

theorem compileModule_verify_of_ok (progName : String) (o : Options) (w : World)
    (MIR : Option MIRParser) (HasError : Bool) (M0 : Module) (Target : TargetMachine)
    (Out : ToolOutputFile) (DwoOut : Bool)
    (hv : o.NoVerify = true ∨ w.verifyModule (moduleAtVerify o w M0 Target) = false) :
    compileModule_verify progName o w MIR (overrideTriple o w M0) Target Out DwoOut
        (stateAtOutputs o w HasError M0 Target) =
      compileModule_pipeline progName o w MIR
        (w.setFunctionAttributes (moduleAtVerify o w M0 Target)) Target Out DwoOut
        (stateAtPipeline progName o w HasError M0 Target) := by
  unfold compileModule_verify
  simp only [moduleAtVerify] at hv
  rcases hv with hv | hv <;> simp [hv, stateAtPipeline, stateAtVerify, moduleAtVerify]

theorem compileModule_pipeline_of_runPass (progName : String) (o : Options) (w : World)
    (M : Module) (Target : TargetMachine) (Out : ToolOutputFile) (DwoOut : Bool) (st : State)
    (hne : o.RunPassNames ≠ []) :
    compileModule_pipeline progName o w none M Target Out DwoOut st =
      ⟨1, emit st (Event.errs HighlightColor.warning progName Message.runPassMirOnly)⟩ := by
  unfold compileModule_pipeline compileModule_passes
  simp [hne]

/-! ## Custom pass lists: what can precede the pipeline -/

theorem beforePasses_of_fromHandler (e : Event) (h : e.fromHandler = true) :
    e.beforePasses = true := by
  cases e <;> first | rfl | (simp [Event.fromHandler] at h)
  rename_i c p m
  cases c <;> cases m <;> first | rfl | (simp [Event.fromHandler] at h)

theorem Before_emit (st : State) (e : Event) (h : Before st) (he : e.beforePasses = true) :
    Before (emit st e) := by
  obtain ⟨a, b, c⟩ := h
  refine ⟨?_, b, c⟩
  intro x hx
  simp only [emit, List.mem_append, List.mem_singleton] at hx
  rcases hx with hx | hx
  · exact a x hx
  · rw [hx]; exact he

theorem Before_deliver (st : State) (ds : List Diag) (h : Before st) :
    Before (deliver st ds) := by
  obtain ⟨a, b, c⟩ := h
  refine ⟨?_, by simpa using b, by simpa using c⟩
  intro x hx
  simp only [deliver_trace, List.mem_append] at hx
  rcases hx with hx | hx
  · exact a x hx
  · exact beforePasses_of_fromHandler x (fromHandler_of_mem_handlerOutput ds x hx)

theorem FailsBefore_fail (st : State) (h : Before st) : FailsBefore ⟨1, st⟩ :=
  ⟨rfl, h.1, h.2.1, h.2.2⟩

theorem compileModule_verify_failsBefore (progName : String) (o : Options) (w : World)
    (M : Module) (Target : TargetMachine) (Out : ToolOutputFile) (DwoOut : Bool) (st : State)
    (hne : o.RunPassNames ≠ []) (h : Before st) :
    FailsBefore (compileModule_verify progName o w none M Target Out DwoOut st) := by
  unfold compileModule_verify
  simp only []
  have h1 : Before (PM_add st (PassId.TargetLibraryInfoWrapperPass o.DisableSimplifyLibCalls)) := by
    obtain ⟨a, b, c⟩ := h
    refine ⟨?_, b, c⟩
    intro x hx
    simp only [PM_add, List.mem_append, List.mem_singleton] at hx
    rcases hx with hx | hx
    · exact a x hx
    · rw [hx]; rfl
  have h3 : Before (deliver (emit (emit (PM_add st
      (PassId.TargetLibraryInfoWrapperPass o.DisableSimplifyLibCalls))
      (Event.setDataLayout (w.createDataLayout Target))) Event.UpgradeDebugInfo)
      (w.UpgradeDebugInfo { M with DataLayout := w.createDataLayout Target }).2) :=
    Before_deliver _ _ (Before_emit _ _ (Before_emit _ _ h1 rfl) rfl)
  have h4 : ∀ M2 : Module, Before (if (!o.NoVerify) = true then
      emit (deliver (emit (emit (PM_add st
        (PassId.TargetLibraryInfoWrapperPass o.DisableSimplifyLibCalls))
        (Event.setDataLayout (w.createDataLayout Target))) Event.UpgradeDebugInfo)
        (w.UpgradeDebugInfo { M with DataLayout := w.createDataLayout Target }).2)
        (Event.verifyModule M2)
      else deliver (emit (emit (PM_add st
        (PassId.TargetLibraryInfoWrapperPass o.DisableSimplifyLibCalls))
        (Event.setDataLayout (w.createDataLayout Target))) Event.UpgradeDebugInfo)
        (w.UpgradeDebugInfo { M with DataLayout := w.createDataLayout Target }).2) := by
    intro M2
    split
    · exact Before_emit _ _ h3 rfl
    · exact h3
  split
  · exact FailsBefore_fail _ (Before_emit _ _ (h4 _) rfl)
  · rw [compileModule_pipeline_of_runPass _ _ _ _ _ _ _ _ hne]
    apply FailsBefore_fail
    refine Before_emit _ (Event.errs HighlightColor.warning progName Message.runPassMirOnly)
      ?_ rfl
    split
    · exact Before_emit _ _ (h4 _) rfl
    · exact h4 _

theorem compileModule_output_failsBefore (progName : String) (o : Options) (w : World)
    (M : Module) (Target : TargetMachine) (st : State)
    (hne : o.RunPassNames ≠ []) (h : Before st) :
    FailsBefore (compileModule_output progName o w none M Target st) := by
  have h1 := Before_emit st (Event.openOutput o.OutputFilename) h rfl
  unfold compileModule_output GetOutputStream
  cases hopen : w.openFile o.OutputFilename with
  | error EC => exact FailsBefore_fail _ (Before_emit _ _ h1 rfl)
  | ok Out =>
    simp only []
    have h2 := Before_emit _ (Event.openDwo o.SplitDwarfOutputFile) h1 rfl
    split
    · split
      · exact FailsBefore_fail _ (Before_emit _ _ h2 rfl)
      · exact compileModule_verify_failsBefore _ _ _ _ _ _ _ _ hne h2
    · exact compileModule_verify_failsBefore _ _ _ _ _ _ _ _ hne h1

theorem compileModule_failsBefore (progName : String) (o : Options) (w : World)
    (HasError : Bool) (hne : o.RunPassNames ≠ []) :
    FailsBefore (compileModule progName o w HasError) := by
  have h0 : Before (initState HasError) := by simp [Before, initState]
  have h1 := Before_deliver _ (w.parseIRFile o.InputFilename).2
    (Before_emit _ (Event.parseIRFile o.InputFilename) h0 rfl)
  unfold compileModule
  simp only []
  split
  · exact FailsBefore_fail _ (Before_emit _ _ h1 rfl)
  · have h2 := fun a b => Before_emit _ (Event.lookupTarget a b) h1 rfl
    split
    · exact FailsBefore_fail _ (Before_emit _ _ (h2 _ _) rfl)
    · split
      · exact FailsBefore_fail _ (Before_emit _ _ (h2 _ _) rfl)
      · exact compileModule_output_failsBefore _ _ _ _ _ _ hne
          (Before_emit _ _ (h2 _ _) rfl)

/-- A failure of `compileModule` whose steps all satisfy `P` is a failure of
`llvm_compile` whose steps all satisfy `P`, when opening the remarks file and the
two reports of `llvm_compile` satisfy `P`. -/
theorem llvm_compile_lift (P : Event → Bool) (progName : String) (o0 : Options) (w : World)
    (input output : String) (hP1 : ∀ f, P (Event.openRemarks f) = true)
    (hP2 : ∀ p EC, P (Event.errs HighlightColor.error p (Message.ecMessage EC)) = true)
    (hP3 : ∀ p, P (Event.errs HighlightColor.error p Message.badInputLanguage) = true)
    (h1 : (compileModule progName (llvm_compile_options o0 w input output) w false).ret = 1)
    (h2 : ∀ e ∈ (compileModule progName (llvm_compile_options o0 w input output)
      w false).st.trace, P e = true) :
    (llvm_compile progName o0 w input output).ret = 1 ∧
    ∀ e ∈ (llvm_compile progName o0 w input output).st.trace, P e = true := by
  unfold llvm_compile
  simp only []
  generalize llvm_compile_options o0 w input output = o at h1 h2 ⊢
  have hpre : ∀ e ∈ (if (o.RemarksFilename != "") = true then
      [Event.openRemarks o.RemarksFilename] else []), P e = true := by
    intro e he
    split at he
    · simp only [List.mem_singleton] at he
      rw [he]; exact hP1 _
    · simp at he
  split
  · refine ⟨rfl, ?_⟩
    intro e he
    simp only [List.mem_append, List.mem_singleton] at he
    rcases he with he | he
    · exact hpre e he
    · rw [he]; exact hP2 _ _
  · split
    · refine ⟨rfl, ?_⟩
      intro e he
      simp only [List.mem_append, List.mem_singleton] at he
      rcases he with he | he
      · exact hpre e he
      · rw [he]; exact hP3 _
    · split
      · refine ⟨h1, ?_⟩
        intro e he
        simp only [List.mem_append] at he
        rcases he with he | he
        · exact hpre e he
        · exact h2 e he
      · rename_i hz
        simp only [ne_eq, not_not] at hz
        rw [hz] at h1
        exact absurd h1 (by decide)

theorem llvm_compile_of_failure (progName : String) (o0 : Options) (w : World)
    (input output : String)
    (hR : o0.RemarksFilename = "" ∨ ∃ F, w.openFile o0.RemarksFilename = Except.ok F)
    (hL : o0.InputLanguage = "" ∨ o0.InputLanguage = "ir" ∨ o0.InputLanguage = "mir")
    (h1 : (compileModule progName (llvm_compile_options o0 w input output) w false).ret = 1) :
    (llvm_compile progName o0 w input output).ret = 1 ∧
    (llvm_compile progName o0 w input output).st.trace =
      (if o0.RemarksFilename = "" then [] else [Event.openRemarks o0.RemarksFilename]) ++
        (compileModule progName (llvm_compile_options o0 w input output) w false).st.trace := by
  have hRem : (llvm_compile_options o0 w input output).RemarksFilename = o0.RemarksFilename :=
    rfl
  have hLang : (llvm_compile_options o0 w input output).InputLanguage = o0.InputLanguage :=
    rfl
  unfold llvm_compile
  simp only []
  generalize llvm_compile_options o0 w input output = o at h1 hRem hLang ⊢
  rw [hRem, hLang]
  have hLb : (o0.InputLanguage != "" && o0.InputLanguage != "ir" &&
      o0.InputLanguage != "mir") = false := by
    rcases hL with h | h | h <;> rw [h] <;> decide
  rcases hR with hR | ⟨F, hF⟩
  · simp [hR, hLb, h1]
  · by_cases hE : o0.RemarksFilename = ""
    · simp [hE, hLb, h1]
    · simp [hE, hF, hLb, h1]

theorem llvm_compile_failsBefore (progName : String) (o0 : Options) (w : World)
    (input output : String) (hne : o0.RunPassNames ≠ []) :
    (llvm_compile progName o0 w input output).ret = 1 ∧
    ∀ e ∈ (llvm_compile progName o0 w input output).st.trace, e.beforePasses = true := by
  obtain ⟨h1, h2, _, _⟩ := compileModule_failsBefore progName
    (llvm_compile_options o0 w input output) w false hne
  exact llvm_compile_lift Event.beforePasses progName o0 w input output (fun _ => rfl)
    (fun _ _ => rfl) (fun _ => rfl) h1 h2

/-! ## An invalid optimization level -/

theorem beforeLevel_of_fromHandler (e : Event) (h : e.fromHandler = true) :
    e.beforeLevel = true := by
  cases e <;> first | rfl | (simp [Event.fromHandler] at h)

theorem all_emit (P : Event → Bool) (st : State) (x : Event)
    (h : ∀ e ∈ st.trace, P e = true) (hx : P x = true) :
    ∀ e ∈ (emit st x).trace, P e = true := by
  intro e he
  simp only [emit, List.mem_append, List.mem_singleton] at he
  rcases he with he | he
  · exact h e he
  · rw [he]; exact hx

theorem all_deliver (P : Event → Bool) (st : State) (ds : List Diag)
    (hP : ∀ e : Event, e.fromHandler = true → P e = true)
    (h : ∀ e ∈ st.trace, P e = true) :
    ∀ e ∈ (deliver st ds).trace, P e = true := by
  intro e he
  simp only [deliver_trace, List.mem_append] at he
  rcases he with he | he
  · exact h e he
  · exact hP e (fromHandler_of_mem_handlerOutput ds e he)

theorem compileModule_invalid_level (progName : String) (o : Options) (w : World)
    (HasError : Bool) (hs : switchOptLevel o.OptLevel = none) :
    (compileModule progName o w HasError).ret = 1 ∧
    ∀ e ∈ (compileModule progName o w HasError).st.trace, e.beforeLevel = true := by
  have h0 : ∀ e ∈ (initState HasError).trace, e.beforeLevel = true := by
    simp [initState]
  have h1 := all_deliver Event.beforeLevel _ (w.parseIRFile o.InputFilename).2
    beforeLevel_of_fromHandler
    (all_emit Event.beforeLevel _ (Event.parseIRFile o.InputFilename) h0 rfl)
  cases hp : (w.parseIRFile o.InputFilename).1 with
  | error Err =>
    rw [compileModule_of_parse_error progName o w HasError Err hp]
    exact ⟨rfl, all_emit Event.beforeLevel _ _ h1 rfl⟩
  | ok M0 =>
    have h2 : ∀ e ∈ (stateAtLookup o w HasError M0).trace, e.beforeLevel = true :=
      all_emit Event.beforeLevel _ _ h1 rfl
    cases hl : w.lookupTarget o.MArch (resolveTriple w (overrideTriple o w M0)) with
    | error Error =>
      rw [compileModule_of_lookup_error progName o w HasError M0 Error hp hl]
      exact ⟨rfl, all_emit Event.beforeLevel _ _ h2 rfl⟩
    | ok T =>
      rw [compileModule_of_invalid_level progName o w HasError M0 T hp hl hs]
      exact ⟨rfl, all_emit Event.beforeLevel _ _ h2 rfl⟩

/-! ## Theorems -/

/-- C1: the primary output is kept only if `compileModule` returns 0 or took the
compile-twice mismatch branch; on every other non-zero return it is not kept; and the
split side file is kept only when the return value is 0. -/
theorem compileModule_keeps_only_on_success (progName : String) (o : Options) (w : World)
    (HasError : Bool) :
    (Event.keepOut ∈ (compileModule progName o w HasError).st.trace →
      (compileModule progName o w HasError).ret = 0 ∨
        twiceChangedEvent ∈ (compileModule progName o w HasError).st.trace) ∧
    ((compileModule progName o w HasError).ret ≠ 0 →
      twiceChangedEvent ∉ (compileModule progName o w HasError).st.trace →
      Event.keepOut ∉ (compileModule progName o w HasError).st.trace) ∧
    (Event.keepDwo ∈ (compileModule progName o w HasError).st.trace →
      (compileModule progName o w HasError).ret = 0) := by
  obtain ⟨h1, h2, _⟩ := compileModule_keepSpec progName o w HasError
  refine ⟨h1.mp, ?_, h2⟩
  intro hr ht hk
  rcases h1.mp hk with h | h
  · exact hr h
  · exact ht h

/-- Witness for C1: the mismatch run keeps the primary output; a run that fails to
parse keeps nothing; a successful run with a side file keeps the side file. -/
theorem compileModule_keeps_only_on_success_witness :
    (Event.keepOut ∈ (compileModule "vpuc" twiceOptions driftWorld false).st.trace ∧
      ((compileModule "vpuc" twiceOptions driftWorld false).ret = 0 ∨
        twiceChangedEvent ∈ (compileModule "vpuc" twiceOptions driftWorld false).st.trace)) ∧
    (((compileModule "vpuc" sampleOptions unreadableWorld false).ret ≠ 0 ∧
        twiceChangedEvent ∉ (compileModule "vpuc" sampleOptions unreadableWorld false).st.trace) ∧
      Event.keepOut ∉ (compileModule "vpuc" sampleOptions unreadableWorld false).st.trace) ∧
    (Event.keepDwo ∈ (compileModule "vpuc" dwoOptions sampleWorld false).st.trace ∧
      (compileModule "vpuc" dwoOptions sampleWorld false).ret = 0) :=
  ⟨⟨by decide,
    (compileModule_keeps_only_on_success "vpuc" twiceOptions driftWorld false).1 (by decide)⟩,
   ⟨⟨by decide, by decide⟩,
    (compileModule_keeps_only_on_success "vpuc" sampleOptions unreadableWorld false).2.1
      (by decide) (by decide)⟩,
   ⟨by decide,
    (compileModule_keeps_only_on_success "vpuc" dwoOptions sampleWorld false).2.2 (by decide)⟩⟩

theorem compileModule_finish_HasError (o : Options) (BOS DwoOut : Bool) (CTB : List Nat)
    (st : State) : (compileModule_finish o BOS DwoOut CTB st).st.HasError = st.HasError := by
  cases BOS <;> cases DwoOut <;> simp only [compileModule_finish] <;> split_ifs <;>
    simp [emit, writeOut]

/-- C2: the handlers only ever set the flag (to true, on an error-severity or
error-kind diagnostic) and never clear it; nothing after the final `PM.run` touches
the flag; the flag at the end is set exactly when it started set or an error
diagnostic was raised at some point; and whenever pass execution was reached, in
single-run or compile-twice mode, and the flag is set, `compileModule` returns 1
(non-zero). -/
theorem compileModule_sticky_flag_fails (progName : String) (o : Options) (w : World)
    (HasError : Bool) :
    (∀ (st : State) (DI : DiagnosticInfo),
      (LLCDiagnosticHandler.handleDiagnostics st DI).HasError =
        (st.HasError || decide (DI.Severity = DiagnosticSeverity.DS_Error))) ∧
    (∀ (st : State) (SMD : SMDiagnostic) (LocCookie : Nat),
      (InlineAsmDiagHandler st SMD LocCookie).HasError =
        (st.HasError || decide (SMD.Kind = DiagKind.DK_Error))) ∧
    (∀ (M : Module) (BOS DwoOut : Bool) (st : State),
      (compileModule_run o w M BOS DwoOut st).st.HasError =
        (PM_run w M BOS (compileModule_firstRun o w M BOS
          (emit st Event.PrintOptionValues)).1).HasError) ∧
    (compileModule progName o w HasError).st.HasError =
      (HasError || raisedError (compileModule progName o w HasError).st.trace) ∧
    ((∃ M bytes, Event.PM_run M bytes ∈ (compileModule progName o w HasError).st.trace) →
      (compileModule progName o w HasError).st.HasError = true →
      (compileModule progName o w HasError).ret = 1 ∧
        (compileModule progName o w HasError).ret ≠ 0) := by
  refine ⟨?_, ?_, ?_, (compileModule_flagSpec progName o w HasError).1, ?_⟩
  · intro st DI
    simp only [LLCDiagnosticHandler.handleDiagnostics, emit]
    split <;> split <;> simp [*]
  · intro st SMD c
    simp only [InlineAsmDiagHandler, emit]
    split <;> split <;> simp [*]
  · intro M BOS DwoOut st
    exact compileModule_finish_HasError o BOS DwoOut _ _
  · intro _ hset
    have h := (compileModule_flagSpec progName o w HasError).2 hset
    exact ⟨h, by rw [h]; decide⟩

/-- Witness for C2: a run that raises an inline-asm error, in single-run mode and
in compile-twice mode. -/
theorem compileModule_sticky_flag_fails_witness :
    (((∃ M bytes, Event.PM_run M bytes ∈
          (compileModule "vpuc" sampleOptions faultyRunWorld false).st.trace) ∧
        (compileModule "vpuc" sampleOptions faultyRunWorld false).st.HasError = true) ∧
      (compileModule "vpuc" sampleOptions faultyRunWorld false).ret = 1 ∧
        (compileModule "vpuc" sampleOptions faultyRunWorld false).ret ≠ 0) ∧
    (((∃ M bytes, Event.PM_run M bytes ∈
          (compileModule "vpuc" twiceOptions faultyRunWorld false).st.trace) ∧
        (compileModule "vpuc" twiceOptions faultyRunWorld false).st.HasError = true) ∧
      (compileModule "vpuc" twiceOptions faultyRunWorld false).ret = 1 ∧
        (compileModule "vpuc" twiceOptions faultyRunWorld false).ret ≠ 0) :=
  ⟨⟨⟨⟨laidOutModule, [1, 2, 3], by decide⟩, by decide⟩,
    (compileModule_sticky_flag_fails "vpuc" sampleOptions faultyRunWorld false).2.2.2.2
      ⟨laidOutModule, [1, 2, 3], by decide⟩ (by decide)⟩,
   ⟨⟨⟨laidOutModule, [1, 2, 3], by decide⟩, by decide⟩,
    (compileModule_sticky_flag_fails "vpuc" twiceOptions faultyRunWorld false).2.2.2.2
      ⟨laidOutModule, [1, 2, 3], by decide⟩ (by decide)⟩⟩

/-- C3, as the code has it: in compile-twice mode, when the first run (on the clone)
wrote `b1`, the second run (on the original) wrote `b2`, and `b1 ≠ b2`, then
`compileModule` returns 1; and when the sticky flag is clear after the second run,
the destination receives exactly `b2`, the primary output is kept, and the mismatch
is reported. -/
theorem compileTwice_mismatch_keeps_second_run (progName : String) (o : Options) (w : World)
    (HasError : Bool) (b1 b2 : List Nat) (hT : o.CompileTwice = true)
    (hruns : runBytes (compileModule progName o w HasError).st.trace = [b1, b2])
    (hne : b1 ≠ b2) :
    (compileModule progName o w HasError).ret = 1 ∧
    ((compileModule progName o w HasError).st.HasError = false →
      (compileModule progName o w HasError).st.Out = b2 ∧
      Event.keepOut ∈ (compileModule progName o w HasError).st.trace ∧
      twiceChangedEvent ∈ (compileModule progName o w HasError).st.trace) := by
  rcases compileModule_shape progName o w HasError with ⟨st, hr, hp⟩ | ⟨M, Out, st, _, hp, hr⟩
  · rw [hr] at hruns
    rw [runBytes_of_preRun _ hp.1] at hruns
    exact absurd hruns (by simp)
  · have hB : useBuffer o Out = true := by simp [useBuffer, hT]
    rw [hr, hB] at hruns ⊢
    obtain ⟨h1, h2⟩ := compileModule_run_twice o w M (!o.SplitDwarfOutputFile.isEmpty) st hT hp
    rw [h1] at hruns
    simp only [List.cons.injEq, and_true] at hruns
    rw [hruns.1, hruns.2] at h2
    exact h2 hne

/-- Witness for C3: the pass manager with state between runs, flag clear. -/
theorem compileTwice_mismatch_keeps_second_run_witness :
    (twiceOptions.CompileTwice = true ∧
      runBytes (compileModule "vpuc" twiceOptions driftWorld false).st.trace = [[0], [1]] ∧
      ([0] : List Nat) ≠ [1]) ∧
    (compileModule "vpuc" twiceOptions driftWorld false).ret = 1 ∧
    ((compileModule "vpuc" twiceOptions driftWorld false).st.HasError = false →
      (compileModule "vpuc" twiceOptions driftWorld false).st.Out = [1] ∧
      Event.keepOut ∈ (compileModule "vpuc" twiceOptions driftWorld false).st.trace ∧
      twiceChangedEvent ∈ (compileModule "vpuc" twiceOptions driftWorld false).st.trace) :=
  ⟨⟨by decide, by decide, by decide⟩,
    compileTwice_mismatch_keeps_second_run "vpuc" twiceOptions driftWorld false [0] [1]
      (by decide) (by decide) (by decide)⟩

/-- Counterexample to C3 as stated: compile-twice mode, the two runs write different
bytes, and the second run raises an error diagnostic; `compileModule` returns 1 at
the sticky-flag check, the destination receives nothing and is not kept. -/
theorem compileTwice_mismatch_counterexample :
    twiceOptions.CompileTwice = true ∧
    runBytes (compileModule "vpuc" twiceOptions driftFaultyWorld false).st.trace = [[0], [1]] ∧
    (compileModule "vpuc" twiceOptions driftFaultyWorld false).ret = 1 ∧
    (compileModule "vpuc" twiceOptions driftFaultyWorld false).st.Out = [] ∧
    Event.keepOut ∉ (compileModule "vpuc" twiceOptions driftFaultyWorld false).st.trace ∧
    ¬ ((compileModule "vpuc" twiceOptions driftFaultyWorld false).ret ≠ 0 ∧
      (compileModule "vpuc" twiceOptions driftFaultyWorld false).st.Out = [1] ∧
      Event.keepOut ∈ (compileModule "vpuc" twiceOptions driftFaultyWorld false).st.trace) := by
  decide

/-- C4, as the code has it: the `switch` resolves the unset value to Default, '0' to
None, '1' to Less, '2' to Default and '3' to Aggressive, and no other character; once
the input is parsed and the target found, the target machine is created with the
resolved level; for any other character `compileModule` returns 1 and no target
machine is created, and when the input parsed and the target was found the last
thing it does is report the invalid optimization level. -/
theorem optLevel_resolution (progName : String) (o : Options) (w : World) (HasError : Bool) :
    switchOptLevel ' ' = some CodeGenOptLevel.Default ∧
    switchOptLevel '0' = some CodeGenOptLevel.None ∧
    switchOptLevel '1' = some CodeGenOptLevel.Less ∧
    switchOptLevel '2' = some CodeGenOptLevel.Default ∧
    switchOptLevel '3' = some CodeGenOptLevel.Aggressive ∧
    (∀ c : Char, c ≠ ' ' → c ≠ '0' → c ≠ '1' → c ≠ '2' → c ≠ '3' → switchOptLevel c = none) ∧
    (∀ (M0 : Module) (T : Nat × String) (OLvl : CodeGenOptLevel),
      (w.parseIRFile o.InputFilename).1 = Except.ok M0 →
      w.lookupTarget o.MArch (resolveTriple w (overrideTriple o w M0)) = Except.ok T →
      switchOptLevel o.OptLevel = some OLvl →
      Event.createTargetMachine ⟨T.1, T.2, OLvl⟩ ∈
        (compileModule progName o w HasError).st.trace) ∧
    (switchOptLevel o.OptLevel = none →
      (compileModule progName o w HasError).ret = 1 ∧
      (∀ TM, Event.createTargetMachine TM ∉ (compileModule progName o w HasError).st.trace) ∧
      (∀ (M0 : Module) (T : Nat × String),
        (w.parseIRFile o.InputFilename).1 = Except.ok M0 →
        w.lookupTarget o.MArch (resolveTriple w (overrideTriple o w M0)) = Except.ok T →
        compileModule progName o w HasError =
          ⟨1, emit (stateAtLookup o w HasError M0)
            (Event.errs HighlightColor.error progName Message.invalidOptLevel)⟩)) := by
  refine ⟨by decide, by decide, by decide, by decide, by decide, ?_, ?_, ?_⟩
  · intro c h0 h1 h2 h3 h4
    simp [switchOptLevel, h0, h1, h2, h3, h4]
  · intro M0 T OLvl hp hl hs
    rw [compileModule_of_level progName o w HasError M0 T OLvl hp hl hs]
    apply (grows_output _ _ _ _ _ _ _).subset
    simp [emit]
  · intro hs
    cases hp : (w.parseIRFile o.InputFilename).1 with
    | error Err =>
      rw [compileModule_of_parse_error progName o w HasError Err hp]
      refine ⟨rfl, ?_, ?_⟩
      · intro TM
        simp [emit, initState, mem_handlerOutput_eq_false, Event.fromHandler]
      · intro M0 T h; exact absurd h (by simp)
    | ok M0 =>
      cases hl : w.lookupTarget o.MArch (resolveTriple w (overrideTriple o w M0)) with
      | error Error =>
        rw [compileModule_of_lookup_error progName o w HasError M0 Error hp hl]
        refine ⟨rfl, ?_, ?_⟩
        · intro TM
          simp [emit, stateAtLookup_trace, mem_handlerOutput_eq_false, Event.fromHandler]
        · intro M1 T h1 h2
          simp only [Except.ok.injEq] at h1
          subst h1
          rw [hl] at h2
          exact absurd h2 (by simp)
      | ok T =>
        rw [compileModule_of_invalid_level progName o w HasError M0 T hp hl hs]
        refine ⟨rfl, ?_, ?_⟩
        · intro TM
          simp [emit, stateAtLookup_trace, mem_handlerOutput_eq_false, Event.fromHandler]
        · intro M1 T1 h1 h2
          simp only [Except.ok.injEq] at h1
          subst h1
          rfl

/-- Witness for C4: `-O3` creates the target machine at Aggressive; `-O9` fails with
the invalid-level report. -/
theorem optLevel_resolution_witness :
    Event.createTargetMachine ⟨1, "x86_64-pc-windows-msvc", CodeGenOptLevel.Aggressive⟩ ∈
      (compileModule "vpuc" o3Options sampleWorld false).st.trace ∧
    ((compileModule "vpuc" o9Options sampleWorld false).ret = 1 ∧
      (∀ TM, Event.createTargetMachine TM ∉
        (compileModule "vpuc" o9Options sampleWorld false).st.trace) ∧
      compileModule "vpuc" o9Options sampleWorld false =
        ⟨1, emit (stateAtLookup o9Options sampleWorld false sampleModule)
          (Event.errs HighlightColor.error "vpuc" Message.invalidOptLevel)⟩) :=
  ⟨(optLevel_resolution "vpuc" o3Options sampleWorld false).2.2.2.2.2.2.1 sampleModule
      (1, "x86_64-pc-windows-msvc") CodeGenOptLevel.Aggressive rfl rfl (by decide),
   ⟨((optLevel_resolution "vpuc" o9Options sampleWorld false).2.2.2.2.2.2.2 (by decide)).1,
    ((optLevel_resolution "vpuc" o9Options sampleWorld false).2.2.2.2.2.2.2 (by decide)).2.1,
    ((optLevel_resolution "vpuc" o9Options sampleWorld false).2.2.2.2.2.2.2 (by decide)).2.2
      sampleModule (1, "x86_64-pc-windows-msvc") rfl rfl⟩⟩


/-- Counterexample to C4 as stated: with `-O9` and a registry that matches no target,
`compileModule` returns 1 right after the lookup with the lookup error; the level is
never examined and the invalid-level report is not written. -/
theorem optLevel_counterexample :
    switchOptLevel o9Options.OptLevel = none ∧
    (compileModule "vpuc" o9Options unknownTargetWorld false).ret = 1 ∧
    (compileModule "vpuc" o9Options unknownTargetWorld false).st.trace =
      [Event.parseIRFile "kernel.ll",
        Event.lookupTarget "x86-64" "x86_64-pc-windows-msvc",
        Event.errs HighlightColor.error "vpuc"
          (Message.lookupError "unable to get target for the triple")] ∧
    Event.errs HighlightColor.error "vpuc" Message.invalidOptLevel ∉
      (compileModule "vpuc" o9Options unknownTargetWorld false).st.trace ∧
    ¬ ((compileModule "vpuc" o9Options unknownTargetWorld false).ret = 1 ∧
      Event.errs HighlightColor.error "vpuc" Message.invalidOptLevel ∈
        (compileModule "vpuc" o9Options unknownTargetWorld false).st.trace) := by
  decide

/-- C5: with the primary output opened as `Out` and pass execution reached, the
buffer is chosen exactly when (the file type is not assembly and `Out` does not
support seeking) or compile-twice is set.  When it is chosen, the runs write to the
buffer (it ends as the bytes of the last run; in compile-twice mode that is the
second of the two runs, not both), and on return 0 the destination holds exactly the
buffer, copied by one write that comes after every run.  When it is not chosen, the
single run writes straight to the destination, the buffer stays empty and nothing is
copied. -/
theorem compileModule_buffering (progName : String) (o : Options) (w : World)
    (HasError : Bool) (Out : ToolOutputFile)
    (hOut : w.openFile o.OutputFilename = Except.ok Out)
    (hrun : runBytes (compileModule progName o w HasError).st.trace ≠ []) :
    (useBuffer o Out = true ↔
      (o.FileType ≠ CodeGenFileType.CGFT_AssemblyFile ∧ Out.supportsSeeking = false) ∨
        o.CompileTwice = true) ∧
    (useBuffer o Out = true →
      (runBytes (compileModule progName o w HasError).st.trace).getLast? =
        some (compileModule progName o w HasError).st.Buffer ∧
      (o.CompileTwice = true → ∃ b1,
        runBytes (compileModule progName o w HasError).st.trace =
          [b1, (compileModule progName o w HasError).st.Buffer]) ∧
      (o.CompileTwice = false →
        runBytes (compileModule progName o w HasError).st.trace =
          [(compileModule progName o w HasError).st.Buffer]) ∧
      ((compileModule progName o w HasError).ret = 0 →
        (compileModule progName o w HasError).st.Out =
          (compileModule progName o w HasError).st.Buffer ∧
        ∃ a b, (compileModule progName o w HasError).st.trace =
            a ++ Event.writeOut (compileModule progName o w HasError).st.Buffer :: b ∧
          writes a = [] ∧ writes b = [] ∧ runBytes b = [])) ∧
    (useBuffer o Out = false →
      runBytes (compileModule progName o w HasError).st.trace =
        [(compileModule progName o w HasError).st.Out] ∧
      (compileModule progName o w HasError).st.Buffer = [] ∧
      writes (compileModule progName o w HasError).st.trace = []) := by
  refine ⟨?_, ?_, ?_⟩
  · simp [useBuffer]
  · intro hB
    rcases compileModule_shape progName o w HasError with ⟨st, hr, hp⟩ | ⟨M, Out1, st, hO, hp, hr⟩
    · rw [hr] at hrun
      exact absurd (runBytes_of_preRun _ hp.1) hrun
    · rw [hOut] at hO
      simp only [Except.ok.injEq] at hO
      subst hO
      rw [hr, hB]
      exact compileModule_run_buffered o w M _ st hp
  · intro hB
    rcases compileModule_shape progName o w HasError with ⟨st, hr, hp⟩ | ⟨M, Out1, st, hO, hp, hr⟩
    · rw [hr] at hrun
      exact absurd (runBytes_of_preRun _ hp.1) hrun
    · rw [hOut] at hO
      simp only [Except.ok.injEq] at hO
      subst hO
      have hT : o.CompileTwice = false := by
        cases h : o.CompileTwice
        · rfl
        · simp [useBuffer, h] at hB
      rw [hr, hB]
      exact compileModule_run_streamed o w M _ st hT hp

/-- Witness for C5: a pipe as destination (buffered, one run), compile-twice on a
seekable file (buffered, the second run only), and a seekable file (streamed). -/
theorem compileModule_buffering_witness :
    (useBuffer sampleOptions ⟨false⟩ = true ∧
      (compileModule "vpuc" sampleOptions pipeWorld false).ret = 0 ∧
      (compileModule "vpuc" sampleOptions pipeWorld false).st.Out =
        (compileModule "vpuc" sampleOptions pipeWorld false).st.Buffer) ∧
    (useBuffer twiceOptions ⟨true⟩ = true ∧
      ∃ b1, runBytes (compileModule "vpuc" twiceOptions sampleWorld false).st.trace =
        [b1, (compileModule "vpuc" twiceOptions sampleWorld false).st.Buffer]) ∧
    (useBuffer sampleOptions ⟨true⟩ = false ∧
      (compileModule "vpuc" sampleOptions sampleWorld false).st.Buffer = []) :=
  ⟨⟨by decide, by decide,
    (((compileModule_buffering "vpuc" sampleOptions pipeWorld false ⟨false⟩ rfl
      (by decide)).2.1 (by decide)).2.2.2 (by decide)).1⟩,
   ⟨by decide,
    ((compileModule_buffering "vpuc" twiceOptions sampleWorld false ⟨true⟩ rfl
      (by decide)).2.1 (by decide)).2.1 (by decide)⟩,
   ⟨by decide,
    ((compileModule_buffering "vpuc" sampleOptions sampleWorld false ⟨true⟩ rfl
      (by decide)).2.2 (by decide)).2.1⟩⟩

/-- C6: when the input parses and the registry lookup for the resolved architecture
and triple fails, `compileModule` returns 1 right after the lookup: the trace is the
parse, the lookup and the report of the lookup error, and nothing else; no output or
side file is opened, no pass is added to the pass manager or run, and the result
does not depend on the optimization level. -/
theorem unknown_target_short_circuits (progName : String) (o : Options) (w : World)
    (HasError : Bool) (M0 : Module) (Error : String)
    (hp : (w.parseIRFile o.InputFilename).1 = Except.ok M0)
    (hl : w.lookupTarget o.MArch (resolveTriple w (overrideTriple o w M0)) =
      Except.error Error) :
    (compileModule progName o w HasError).ret = 1 ∧
    (compileModule progName o w HasError).st.trace =
      Event.parseIRFile o.InputFilename :: (handlerOutput (w.parseIRFile o.InputFilename).2 ++
        [Event.lookupTarget o.MArch (resolveTriple w (overrideTriple o w M0)),
          Event.errs HighlightColor.error progName (Message.lookupError Error)]) ∧
    (∀ f, Event.openOutput f ∉ (compileModule progName o w HasError).st.trace ∧
      Event.openDwo f ∉ (compileModule progName o w HasError).st.trace) ∧
    (compileModule progName o w HasError).st.PM = [] ∧
    (∀ P, Event.PM_add P ∉ (compileModule progName o w HasError).st.trace) ∧
    (compileModule progName o w HasError).st.runs = 0 ∧
    (∀ M bytes, Event.PM_run M bytes ∉ (compileModule progName o w HasError).st.trace) ∧
    (∀ TM, Event.createTargetMachine TM ∉ (compileModule progName o w HasError).st.trace) ∧
    (∀ c : Char, compileModule progName { o with OptLevel := c } w HasError =
      compileModule progName o w HasError) := by
  have h := compileModule_of_lookup_error progName o w HasError M0 Error hp hl
  refine ⟨?_, ?_, ?_, ?_, ?_, ?_, ?_, ?_, ?_⟩
  · rw [h]
  · rw [h]; simp [emit, stateAtLookup_trace]
  · intro f
    rw [h]
    simp [emit, stateAtLookup_trace, mem_handlerOutput_eq_false, Event.fromHandler]
  · rw [h]; simp [emit, stateAtLookup, initState]
  · intro P
    rw [h]
    simp [emit, stateAtLookup_trace, mem_handlerOutput_eq_false, Event.fromHandler]
  · rw [h]; simp [emit, stateAtLookup, initState]
  · intro M bytes
    rw [h]
    simp [emit, stateAtLookup_trace, mem_handlerOutput_eq_false, Event.fromHandler]
  · intro TM
    rw [h]
    simp [emit, stateAtLookup_trace, mem_handlerOutput_eq_false, Event.fromHandler]
  · intro c
    rw [h]
    exact compileModule_of_lookup_error progName { o with OptLevel := c } w HasError M0 Error
      hp hl

/-- Witness for C6: a registry that matches nothing. -/
theorem unknown_target_short_circuits_witness :
    (compileModule "vpuc" sampleOptions unknownTargetWorld false).ret = 1 ∧
    (compileModule "vpuc" sampleOptions unknownTargetWorld false).st.PM = [] ∧
    (∀ c : Char, compileModule "vpuc" { sampleOptions with OptLevel := c }
        unknownTargetWorld false =
      compileModule "vpuc" sampleOptions unknownTargetWorld false) :=
  ⟨(unknown_target_short_circuits "vpuc" sampleOptions unknownTargetWorld false sampleModule
      "unable to get target for the triple" rfl rfl).1,
   (unknown_target_short_circuits "vpuc" sampleOptions unknownTargetWorld false sampleModule
      "unable to get target for the triple" rfl rfl).2.2.2.1,
   (unknown_target_short_circuits "vpuc" sampleOptions unknownTargetWorld false sampleModule
      "unable to get target for the triple" rfl rfl).2.2.2.2.2.2.2.2⟩

/-- C9, as the code has it: with a non-empty custom pass list (the input is always
read as textual IR: `MIR` is null), `compileModule` returns 1, never creates a pass
configuration, never looks up or adds a named pass, never runs the pass manager and
keeps no output; and when the execution gets as far as building the pipeline (input
parsed, target found, level valid, outputs opened, verifier disabled or passing), its
last step is the report that run-pass is for .mir files only. -/
theorem run_pass_needs_mir (progName : String) (o : Options) (w : World) (HasError : Bool)
    (hne : o.RunPassNames ≠ []) :
    (compileModule progName o w HasError).ret = 1 ∧
    Event.createPassConfig ∉ (compileModule progName o w HasError).st.trace ∧
    (∀ n, Event.getPassInfo n ∉ (compileModule progName o w HasError).st.trace) ∧
    (∀ n, Event.PM_add (PassId.fromRegistry n) ∉
      (compileModule progName o w HasError).st.trace) ∧
    (∀ M bytes, Event.PM_run M bytes ∉ (compileModule progName o w HasError).st.trace) ∧
    Event.keepOut ∉ (compileModule progName o w HasError).st.trace ∧
    Event.keepDwo ∉ (compileModule progName o w HasError).st.trace ∧
    (∀ (M0 : Module) (T : Nat × String) (OLvl : CodeGenOptLevel) (Out : ToolOutputFile),
      (w.parseIRFile o.InputFilename).1 = Except.ok M0 →
      w.lookupTarget o.MArch (resolveTriple w (overrideTriple o w M0)) = Except.ok T →
      switchOptLevel o.OptLevel = some OLvl →
      w.openFile o.OutputFilename = Except.ok Out →
      (o.SplitDwarfOutputFile.isEmpty = false →
        ∃ D, w.openFile o.SplitDwarfOutputFile = Except.ok D) →
      (o.NoVerify = true ∨ w.verifyModule (moduleAtVerify o w M0 ⟨T.1, T.2, OLvl⟩) = false) →
      compileModule progName o w HasError =
        ⟨1, emit (stateAtPipeline progName o w HasError M0 ⟨T.1, T.2, OLvl⟩)
          (Event.errs HighlightColor.warning progName Message.runPassMirOnly)⟩) := by
  obtain ⟨h1, h2, _, _⟩ := compileModule_failsBefore progName o w HasError hne
  have hno : ∀ e : Event, e.beforePasses = false →
      e ∉ (compileModule progName o w HasError).st.trace := by
    intro e he hm
    rw [h2 e hm] at he
    exact Bool.noConfusion he
  refine ⟨h1, hno _ rfl, fun n => hno _ rfl, fun n => hno _ rfl, fun M b => hno _ rfl,
    hno _ rfl, hno _ rfl, ?_⟩
  intro M0 T OLvl Out hp hl hs hOut hDwo hv
  rw [compileModule_of_level progName o w HasError M0 T OLvl hp hl hs,
    compileModule_output_of_open progName o w none HasError M0 _ Out hOut hDwo,
    compileModule_verify_of_ok progName o w none HasError M0 _ Out _ hv,
    compileModule_pipeline_of_runPass _ _ _ _ _ _ _ _ hne]

/-- Witness for C9: the sample library, with one custom pass named. -/
theorem run_pass_needs_mir_witness :
    (compileModule "vpuc" runPassOptions sampleWorld false).ret = 1 ∧
    Event.createPassConfig ∉ (compileModule "vpuc" runPassOptions sampleWorld false).st.trace ∧
    compileModule "vpuc" runPassOptions sampleWorld false =
      ⟨1, emit (stateAtPipeline "vpuc" runPassOptions sampleWorld false sampleModule sampleTarget)
        (Event.errs HighlightColor.warning "vpuc" Message.runPassMirOnly)⟩ :=
  ⟨(run_pass_needs_mir "vpuc" runPassOptions sampleWorld false (by decide)).1,
   (run_pass_needs_mir "vpuc" runPassOptions sampleWorld false (by decide)).2.1,
   (run_pass_needs_mir "vpuc" runPassOptions sampleWorld false (by decide)).2.2.2.2.2.2.2
     sampleModule (1, "x86_64-pc-windows-msvc") CodeGenOptLevel.Default ⟨true⟩ rfl rfl
     (by decide) rfl (fun _ => ⟨⟨true⟩, rfl⟩) (Or.inr rfl)⟩


/-- Counterexample to C9 as stated: with a non-empty custom pass list and a module
the verifier rejects, `compileModule` returns 1 with the report that the input module
is broken, before the pass list is looked at; the report that run-pass is for .mir
files only is not written. -/
theorem run_pass_counterexample :
    threePassOptions.RunPassNames ≠ [] ∧
    (compileModule "vpuc" threePassOptions brokenWorld false).ret = 1 ∧
    Event.errs HighlightColor.error ("vpuc" ++ ": " ++ "kernel.ll") Message.moduleBroken ∈
      (compileModule "vpuc" threePassOptions brokenWorld false).st.trace ∧
    Event.errs HighlightColor.warning "vpuc" Message.runPassMirOnly ∉
      (compileModule "vpuc" threePassOptions brokenWorld false).st.trace ∧
    ¬ ((compileModule "vpuc" threePassOptions brokenWorld false).ret = 1 ∧
      Event.errs HighlightColor.warning "vpuc" Message.runPassMirOnly ∈
        (compileModule "vpuc" threePassOptions brokenWorld false).st.trace) := by
  decide

/-- C8, as the code has it: with the custom pass list "no-such-pass", `llvm_compile`
(whatever the input language) and `compileModule` return 1, but never through the
unknown-pass report: the registry is never asked and that message is never written;
when the execution gets as far as building the pipeline the failure is the report
that run-pass is for .mir files only.  The unknown-pass branch itself, in `addPass`,
does report the unregistered name and fail. -/
theorem unknown_pass_never_reported (progName : String) (o : Options) (w : World)
    (HasError : Bool) (hlist : o.RunPassNames = ["no-such-pass"]) :
    (compileModule progName o w HasError).ret = 1 ∧
    (∀ input output, (llvm_compile progName o w input output).ret = 1) ∧
    (∀ c p n, Event.errs c p (Message.runPassNotRegistered n) ∉
      (compileModule progName o w HasError).st.trace) ∧
    (∀ input output c p n, Event.errs c p (Message.runPassNotRegistered n) ∉
      (llvm_compile progName o w input output).st.trace) ∧
    (∀ n, Event.getPassInfo n ∉ (compileModule progName o w HasError).st.trace) ∧
    (∀ input output n, Event.getPassInfo n ∉
      (llvm_compile progName o w input output).st.trace) ∧
    (∀ (M0 : Module) (T : Nat × String) (OLvl : CodeGenOptLevel) (Out : ToolOutputFile),
      (w.parseIRFile o.InputFilename).1 = Except.ok M0 →
      w.lookupTarget o.MArch (resolveTriple w (overrideTriple o w M0)) = Except.ok T →
      switchOptLevel o.OptLevel = some OLvl →
      w.openFile o.OutputFilename = Except.ok Out →
      (o.SplitDwarfOutputFile.isEmpty = false →
        ∃ D, w.openFile o.SplitDwarfOutputFile = Except.ok D) →
      (o.NoVerify = true ∨ w.verifyModule (moduleAtVerify o w M0 ⟨T.1, T.2, OLvl⟩) = false) →
      compileModule progName o w HasError =
        ⟨1, emit (stateAtPipeline progName o w HasError M0 ⟨T.1, T.2, OLvl⟩)
          (Event.errs HighlightColor.warning progName Message.runPassMirOnly)⟩) ∧
    (∀ (NoVerify : Bool) (st : State), w.getPassInfo "no-such-pass" = none →
      addPass progName w NoVerify "no-such-pass" st =
        (true, emit (emit st (Event.getPassInfo "no-such-pass"))
          (Event.errs HighlightColor.error progName
            (Message.runPassNotRegistered "no-such-pass")))) := by
  have hne : o.RunPassNames ≠ [] := by rw [hlist]; simp
  obtain ⟨h1, h2, _, _⟩ := compileModule_failsBefore progName o w HasError hne
  have hno : ∀ e : Event, e.beforePasses = false →
      e ∉ (compileModule progName o w HasError).st.trace := by
    intro e he hm
    rw [h2 e hm] at he
    exact Bool.noConfusion he
  have hno2 : ∀ input output, ∀ e : Event, e.beforePasses = false →
      e ∉ (llvm_compile progName o w input output).st.trace := by
    intro input output e he hm
    rw [(llvm_compile_failsBefore progName o w input output hne).2 e hm] at he
    exact Bool.noConfusion he
  refine ⟨h1, fun i u => (llvm_compile_failsBefore progName o w i u hne).1,
    fun c p n => hno _ rfl, fun i u c p n => hno2 i u _ rfl, fun n => hno _ rfl,
    fun i u n => hno2 i u _ rfl, ?_, ?_⟩
  · intro M0 T OLvl Out hp hl hs hOut hDwo hv
    rw [compileModule_of_level progName o w HasError M0 T OLvl hp hl hs,
      compileModule_output_of_open progName o w none HasError M0 _ Out hOut hDwo,
      compileModule_verify_of_ok progName o w none HasError M0 _ Out _ hv,
      compileModule_pipeline_of_runPass _ _ _ _ _ _ _ _ hne]
  · intro NoVerify st hnone
    unfold addPass
    simp [hnone]

/-- Witness for C8: the sample library with `-run-pass=no-such-pass -x mir`. -/
theorem unknown_pass_never_reported_witness :
    runPassOptions.RunPassNames = ["no-such-pass"] ∧
    (compileModule "vpuc" runPassOptions sampleWorld false).ret = 1 ∧
    (∀ input output, (llvm_compile "vpuc" runPassOptions sampleWorld input output).ret = 1) :=
  ⟨rfl, (unknown_pass_never_reported "vpuc" runPassOptions sampleWorld false rfl).1,
    (unknown_pass_never_reported "vpuc" runPassOptions sampleWorld false rfl).2.1⟩

/-- Counterexample to C8 as stated: with the pass list "no-such-pass", the input
language "mir" and a registry without that pass, `llvm_compile` returns 1, but what it
reports is that run-pass is for .mir files only (or, when the reader rejects the
file, the parse error); the registry is not asked and the unknown-pass report is not
written. -/
theorem unknown_pass_counterexample :
    runPassOptions.RunPassNames = ["no-such-pass"] ∧
    runPassOptions.InputLanguage = "mir" ∧
    sampleWorld.getPassInfo "no-such-pass" = none ∧
    (llvm_compile "vpuc" runPassOptions sampleWorld "kernel.mir" "kernel.obj").ret = 1 ∧
    Event.errs HighlightColor.warning "vpuc" Message.runPassMirOnly ∈
      (llvm_compile "vpuc" runPassOptions sampleWorld "kernel.mir" "kernel.obj").st.trace ∧
    Event.errs HighlightColor.error "vpuc" (Message.runPassNotRegistered "no-such-pass") ∉
      (llvm_compile "vpuc" runPassOptions sampleWorld "kernel.mir" "kernel.obj").st.trace ∧
    Event.getPassInfo "no-such-pass" ∉
      (llvm_compile "vpuc" runPassOptions sampleWorld "kernel.mir" "kernel.obj").st.trace ∧
    (llvm_compile "vpuc" runPassOptions unreadableWorld "kernel.mir" "kernel.obj").ret = 1 ∧
    Event.errs HighlightColor.error "vpuc"
        (Message.parseError ⟨DiagKind.DK_Error, "expected top-level entity"⟩) ∈
      (llvm_compile "vpuc" runPassOptions unreadableWorld "kernel.mir" "kernel.obj").st.trace ∧
    Event.errs HighlightColor.error "vpuc" (Message.runPassNotRegistered "no-such-pass") ∉
      (llvm_compile "vpuc" runPassOptions unreadableWorld "kernel.mir" "kernel.obj").st.trace := by
  decide

/-- C10, as the code has it: with an optimization level outside the unset value and
'0' to '3', `llvm_compile` returns 1 without opening the output or the split side
file and without creating a target machine; and when the remarks file (if one is
named) opens, the input language is accepted, the input parses and the target is
found, the run is exactly: open the remarks file (if named), read the input, look up
the target, report the invalid optimization level. -/
theorem invalid_level_opens_no_output (progName : String) (o0 : Options) (w : World)
    (input output : String) (hs : switchOptLevel o0.OptLevel = none) :
    (llvm_compile progName o0 w input output).ret = 1 ∧
    (∀ f, Event.openOutput f ∉ (llvm_compile progName o0 w input output).st.trace) ∧
    (∀ f, Event.openDwo f ∉ (llvm_compile progName o0 w input output).st.trace) ∧
    (∀ TM, Event.createTargetMachine TM ∉
      (llvm_compile progName o0 w input output).st.trace) ∧
    (∀ (M0 : Module) (T : Nat × String),
      (o0.RemarksFilename = "" ∨ ∃ F, w.openFile o0.RemarksFilename = Except.ok F) →
      (o0.InputLanguage = "" ∨ o0.InputLanguage = "ir" ∨ o0.InputLanguage = "mir") →
      (w.parseIRFile input).1 = Except.ok M0 →
      w.lookupTarget (llvm_compile_options o0 w input output).MArch
        (resolveTriple w (overrideTriple o0 w M0)) = Except.ok T →
      (llvm_compile progName o0 w input output).st.trace =
        (if o0.RemarksFilename = "" then [] else [Event.openRemarks o0.RemarksFilename]) ++
          (Event.parseIRFile input :: (handlerOutput (w.parseIRFile input).2 ++
            [Event.lookupTarget (llvm_compile_options o0 w input output).MArch
                (resolveTriple w (overrideTriple o0 w M0)),
              Event.errs HighlightColor.error progName Message.invalidOptLevel]))) := by
  have hs1 : switchOptLevel (llvm_compile_options o0 w input output).OptLevel = none := hs
  obtain ⟨h1, h2⟩ := compileModule_invalid_level progName
    (llvm_compile_options o0 w input output) w false hs1
  obtain ⟨h3, h4⟩ := llvm_compile_lift Event.beforeLevel progName o0 w input output
    (fun _ => rfl) (fun _ _ => rfl) (fun _ => rfl) h1 h2
  have hno : ∀ e : Event, e.beforeLevel = false →
      e ∉ (llvm_compile progName o0 w input output).st.trace := by
    intro e he hm
    rw [h4 e hm] at he
    exact Bool.noConfusion he
  refine ⟨h3, fun f => hno _ rfl, fun f => hno _ rfl, fun TM => hno _ rfl, ?_⟩
  intro M0 T hR hL hp hl
  rw [(llvm_compile_of_failure progName o0 w input output hR hL h1).2,
    compileModule_of_invalid_level progName (llvm_compile_options o0 w input output) w false
      M0 T hp hl hs1]
  simp only [emit, stateAtLookup_trace, List.cons_append, List.append_assoc,
    List.singleton_append]
  rfl

/-- Witness for C10: `-O9` with a remarks file, on the sample library. -/
theorem invalid_level_opens_no_output_witness :
    switchOptLevel o9RemarksOptions.OptLevel = none ∧
    (llvm_compile "vpuc" o9RemarksOptions sampleWorld "kernel.ll" "kernel.obj").ret = 1 ∧
    (∀ f, Event.openOutput f ∉
      (llvm_compile "vpuc" o9RemarksOptions sampleWorld "kernel.ll" "kernel.obj").st.trace) :=
  ⟨by decide,
    (invalid_level_opens_no_output "vpuc" o9RemarksOptions sampleWorld "kernel.ll"
      "kernel.obj" (by decide)).1,
    (invalid_level_opens_no_output "vpuc" o9RemarksOptions sampleWorld "kernel.ll"
      "kernel.obj" (by decide)).2.1⟩

/-- Counterexample to C10 as stated: with `-O9` and a remarks file named,
`llvm_compile` returns 1 with the invalid-level report, but only after it has opened
the remarks file and read the input file. -/
theorem invalid_level_counterexample :
    switchOptLevel o9RemarksOptions.OptLevel = none ∧
    (llvm_compile "vpuc" o9RemarksOptions sampleWorld "kernel.ll" "kernel.obj").ret = 1 ∧
    (llvm_compile "vpuc" o9RemarksOptions sampleWorld "kernel.ll" "kernel.obj").st.trace =
      [Event.openRemarks "remarks.yaml", Event.parseIRFile "kernel.ll",
        Event.lookupTarget "x86-64" "x86_64-pc-windows-msvc",
        Event.errs HighlightColor.error "vpuc" Message.invalidOptLevel] ∧
    (compileModule "vpuc" o9Options sampleWorld false).st.trace =
      [Event.parseIRFile "kernel.ll",
        Event.lookupTarget "x86-64" "x86_64-pc-windows-msvc",
        Event.errs HighlightColor.error "vpuc" Message.invalidOptLevel] := by
  decide

/-! ## The custom pass list: reading the option and adding the passes -/

theorem split_eq_filter_splitOn (Separator : Char) (S piece : List Char)
    (h : ∀ x ∈ piece, ¬ (x == Separator) = true) :
    StringRef.split Separator S piece =
      ((piece ++ S).splitOn Separator).filter (fun seg => !seg.isEmpty) := by
  induction S generalizing piece with
  | nil =>
    simp only [StringRef.split, List.append_nil, List.splitOn]
    rw [List.splitOnP_eq_single _ _ h]
    cases piece <;> simp
  | cons c S ih =>
    simp only [StringRef.split]
    by_cases hc : c = Separator
    · subst hc
      simp only [if_true, List.splitOn]
      rw [List.splitOnP_first _ _ h c (by simp) S]
      have ih0 := ih [] (by simp)
      simp only [List.nil_append, List.splitOn] at ih0
      cases piece with
      | nil => simp [ih0]
      | cons x xs => simp [ih0]
    · simp only [hc, if_false]
      have h1 : ∀ x ∈ piece ++ [c], ¬ (x == Separator) = true := by
        intro x hx
        simp only [List.mem_append, List.mem_singleton] at hx
        rcases hx with hx | hx
        · exact h x hx
        · rw [hx]; simpa using hc
      rw [ih (piece ++ [c]) h1, List.append_assoc]
      rfl

theorem foldl_push (pieces : List (List Char)) (names : List String) :
    pieces.foldl (fun names PassName => names ++ [String.mk PassName]) names =
      names ++ pieces.map String.mk := by
  induction pieces generalizing names with
  | nil => simp
  | cons x xs ih => simp [ih]

theorem operator_assign_eq (RunPassNames : List String) (Val : String) :
    RunPassOption.operator_assign RunPassNames Val = RunPassNames ++ nonEmptySegments Val := by
  unfold RunPassOption.operator_assign nonEmptySegments
  split
  · rename_i hV
    subst hV
    simp
  · rw [foldl_push, split_eq_filter_splitOn ',' Val.toList [] (by simp)]
    rfl

theorem foldl_PM_add_PM (Ps : List PassId) (st : State) :
    (Ps.foldl PM_add st).PM = st.PM ++ Ps := by
  induction Ps generalizing st with
  | nil => simp
  | cons P Ps ih => simp [ih, PM_add]

theorem addPass_of_constructible (progName : String) (w : World) (NoVerify : Bool)
    (PassName : String) (st : State) (hn : PassName ≠ "none")
    (hc : constructible w PassName = true) :
    (addPass progName w NoVerify PassName st).1 = false ∧
    (addPass progName w NoVerify PassName st).2.PM =
      st.PM ++ stagesFor w NoVerify PassName := by
  unfold constructible at hc
  unfold addPass stagesFor
  cases h1 : w.getPassInfo PassName with
  | none => simp [h1] at hc
  | some PI =>
    simp only [h1] at hc
    simp [hn, hc, printAndVerify, foldl_PM_add_PM, PM_add, emit]

theorem addPassLoop_of_constructible (progName : String) (w : World) (NoVerify : Bool)
    (names : List String) (st : State)
    (h : ∀ n ∈ names, n ≠ "none" ∧ constructible w n = true) :
    (addPassLoop progName w NoVerify names st).1 = false ∧
    (addPassLoop progName w NoVerify names st).2.PM =
      st.PM ++ names.flatMap (stagesFor w NoVerify) := by
  induction names generalizing st with
  | nil => simp [addPassLoop]
  | cons n names ih =>
    obtain ⟨h1, h2⟩ := addPass_of_constructible progName w NoVerify n st
      (h n (List.mem_cons_self n names)).1 (h n (List.mem_cons_self n names)).2
    obtain ⟨h3, h4⟩ := ih (addPass progName w NoVerify n st).2
      (fun m hm => h m (List.mem_cons_of_mem n hm))
    simp only [addPassLoop, h1, Bool.false_eq_true, if_false]
    refine ⟨h3, ?_⟩
    rw [h4, h2, List.flatMap_cons, List.append_assoc]

theorem compileModule_passes_custom (progName : String) (o : Options) (w : World)
    (mir : MIRParser) (Target : TargetMachine) (DwoOut : Bool) (st : State)
    (hne : o.RunPassNames ≠ []) (hlim : w.hasLimitedCodeGenPipeline = false)
    (h : ∀ n ∈ o.RunPassNames, n ≠ "none" ∧ constructible w n = true) :
    (compileModule_passes progName o w (some mir) Target DwoOut st).1 = false ∧
    (compileModule_passes progName o w (some mir) Target DwoOut st).2.PM =
      st.PM ++ [PassId.TargetPassConfig, PassId.MachineModuleInfo] ++
        w.printAndVerify o.NoVerify "" ++
        o.RunPassNames.flatMap (stagesFor w o.NoVerify) ++
        [PassId.PrintMIRPass, PassId.FreeMachineFunctionPass] := by
  obtain ⟨h1, h2⟩ := addPassLoop_of_constructible progName w o.NoVerify o.RunPassNames
    (printAndVerify w o.NoVerify (PM_add (PM_add (emit st Event.createPassConfig)
      PassId.TargetPassConfig) PassId.MachineModuleInfo) "") h
  have he : (!o.RunPassNames.isEmpty) = true := by
    cases hn : o.RunPassNames with
    | nil => exact absurd hn hne
    | cons x xs => rfl
  unfold compileModule_passes
  simp only [he, hlim, h1, if_true, Bool.false_eq_true, if_false]
  refine ⟨trivial, ?_⟩
  simp only [printAndVerify, PM_add, emit] at h2 ⊢
  rw [h2]
  simp [foldl_PM_add_PM]

theorem flatMap_stagesFor_of_quiet (w : World) (NoVerify : Bool) (names : List String)
    (hq : ∀ b s, w.printAndVerify b s = [])
    (h : ∀ n ∈ names, n ≠ "none" ∧ constructible w n = true) :
    (names.flatMap (stagesFor w NoVerify)).map some = names.map (passOf w) := by
  induction names with
  | nil => rfl
  | cons n names ih =>
    have hc := (h n (List.mem_cons_self n names)).2
    have ih1 := ih (fun m hm => h m (List.mem_cons_of_mem n hm))
    unfold constructible at hc
    cases h1 : w.getPassInfo n with
    | none => simp [h1] at hc
    | some PI =>
      rw [List.flatMap_cons, List.map_append, ih1]
      simp [stagesFor, passOf, h1, hq]

/-- C11, as the code has it: `RunPassOption::operator=` appends to the recorded list
exactly the non-empty comma-separated segments of the string, in order and with
repeats (the empty string appends nothing, earlier names stay in front).  For a
recorded list in which each name is registered, constructible and not "none", the
`addPass` loop succeeds and hands the pass manager, name by name in that order, the
pass of that name followed by what `printAndVerify` adds for it; the custom branch,
given a machine-IR parser, puts the pass configuration, the module info and these
stages in the pass manager, then the printer stage and then the cleanup stage; when
`printAndVerify` adds nothing that is one pass per name.  For the name "none"
`addPass` adds nothing. -/
theorem run_pass_order_preserved (progName : String) (w : World) :
    (∀ (RunPassNames : List String) (Val : String),
      RunPassOption.operator_assign RunPassNames Val =
        RunPassNames ++ nonEmptySegments Val) ∧
    (∀ RunPassNames : List String,
      RunPassOption.operator_assign RunPassNames "" = RunPassNames) ∧
    (∀ (NoVerify : Bool) (st : State),
      addPass progName w NoVerify "none" st = (false, st)) ∧
    (∀ (NoVerify : Bool) (names : List String) (st : State),
      (∀ n ∈ names, n ≠ "none" ∧ constructible w n = true) →
      (addPassLoop progName w NoVerify names st).1 = false ∧
      (addPassLoop progName w NoVerify names st).2.PM =
        st.PM ++ names.flatMap (stagesFor w NoVerify)) ∧
    (∀ (o : Options) (mir : MIRParser) (Target : TargetMachine) (DwoOut : Bool) (st : State),
      o.RunPassNames ≠ [] → w.hasLimitedCodeGenPipeline = false →
      (∀ n ∈ o.RunPassNames, n ≠ "none" ∧ constructible w n = true) →
      (compileModule_passes progName o w (some mir) Target DwoOut st).1 = false ∧
      (compileModule_passes progName o w (some mir) Target DwoOut st).2.PM =
        st.PM ++ [PassId.TargetPassConfig, PassId.MachineModuleInfo] ++
          w.printAndVerify o.NoVerify "" ++
          o.RunPassNames.flatMap (stagesFor w o.NoVerify) ++
          [PassId.PrintMIRPass, PassId.FreeMachineFunctionPass] ∧
      ((∀ b s, w.printAndVerify b s = []) →
        ∃ Ps : List PassId, Ps.map some = o.RunPassNames.map (passOf w) ∧
          (compileModule_passes progName o w (some mir) Target DwoOut st).2.PM =
            st.PM ++ [PassId.TargetPassConfig, PassId.MachineModuleInfo] ++ Ps ++
              [PassId.PrintMIRPass, PassId.FreeMachineFunctionPass])) := by
  refine ⟨operator_assign_eq, ?_, ?_, ?_, ?_⟩
  · intro names
    simp [RunPassOption.operator_assign]
  · intro NoVerify st
    simp [addPass]
  · intro NoVerify names st h
    exact addPassLoop_of_constructible progName w NoVerify names st h
  · intro o mir Target DwoOut st hne hlim h
    obtain ⟨h1, h2⟩ := compileModule_passes_custom progName o w mir Target DwoOut st hne hlim h
    refine ⟨h1, h2, ?_⟩
    intro hq
    refine ⟨o.RunPassNames.flatMap (stagesFor w o.NoVerify),
      flatMap_stagesFor_of_quiet w o.NoVerify o.RunPassNames hq h, ?_⟩
    rw [h2, hq]
    simp

/-- Witness for C11: the option string ",dead-mi-elimination,,machine-cse," read when
the list already holds machine-cse, and the custom branch on the three names with a
registry that has both passes. -/
theorem run_pass_order_preserved_witness :
    RunPassOption.operator_assign ["machine-cse"] ",dead-mi-elimination,,machine-cse," =
      ["machine-cse", "dead-mi-elimination", "machine-cse"] ∧
    ((threePassOptions.RunPassNames ≠ [] ∧ registryWorld.hasLimitedCodeGenPipeline = false ∧
        ∀ n ∈ threePassOptions.RunPassNames,
          n ≠ "none" ∧ constructible registryWorld n = true) ∧
      (compileModule_passes "vpuc" threePassOptions registryWorld (some ⟨false⟩) sampleTarget
        false (initState false)).1 = false ∧
      (compileModule_passes "vpuc" threePassOptions registryWorld (some ⟨false⟩) sampleTarget
        false (initState false)).2.PM =
        [PassId.TargetPassConfig, PassId.MachineModuleInfo,
          PassId.fromRegistry "Machine Common Subexpression Elimination",
          PassId.fromRegistry "Remove dead machine instructions",
          PassId.fromRegistry "Machine Common Subexpression Elimination",
          PassId.PrintMIRPass, PassId.FreeMachineFunctionPass]) :=
  ⟨((run_pass_order_preserved "vpuc" registryWorld).1 ["machine-cse"]
      ",dead-mi-elimination,,machine-cse,").trans (by decide),
   ⟨⟨by decide, rfl, by decide⟩,
    ((run_pass_order_preserved "vpuc" registryWorld).2.2.2.2 threePassOptions ⟨false⟩
      sampleTarget false (initState false) (by decide) rfl (by decide)).1,
    ((run_pass_order_preserved "vpuc" registryWorld).2.2.2.2 threePassOptions ⟨false⟩
      sampleTarget false (initState false) (by decide) rfl (by decide)).2.1.trans
      (by decide)⟩⟩

/-- Counterexample to C11 as stated: with a pass registered (and constructible) under
the name "none", the recorded list ["none"] makes the `addPass` loop succeed without
handing any pass to the pass manager, and the custom branch builds a pipeline with
no pass for that name; and in `compileModule` itself, where no machine-IR parser
exists, a list of registered names leaves the pass manager without any of them. -/
theorem run_pass_none_counterexample :
    RunPassOption.operator_assign [] "none" = ["none"] ∧
    noneWorld.getPassInfo "none" = some ⟨"none", true⟩ ∧
    (∀ n ∈ nonePassOptions.RunPassNames, constructible noneWorld n = true) ∧
    (addPassLoop "vpuc" noneWorld false nonePassOptions.RunPassNames (initState false)).1 =
      false ∧
    (addPassLoop "vpuc" noneWorld false nonePassOptions.RunPassNames (initState false)).2.PM =
      [] ∧
    (compileModule_passes "vpuc" nonePassOptions noneWorld (some ⟨false⟩) sampleTarget false
      (initState false)).2.PM =
      [PassId.TargetPassConfig, PassId.MachineModuleInfo, PassId.PrintMIRPass,
        PassId.FreeMachineFunctionPass] ∧
    (∀ n ∈ threePassOptions.RunPassNames, constructible registryWorld n = true) ∧
    (compileModule "vpuc" threePassOptions registryWorld false).ret = 1 ∧
    (compileModule "vpuc" threePassOptions registryWorld false).st.PM =
      [PassId.TargetLibraryInfoWrapperPass false] := by
  decide

end LlvmCompiler
